import Mathlib

/-!
# Lock.h : semaphores, recursive lock, reader/writer lock

A shallow embedding of `src/drv/fs/bfs/Lock.h`.  Every class becomes a structure
holding its fields, every member function a function on that structure.  A call
that may suspend its caller inside the kernel returns an `Outcome`: either it
returned a status, or the caller is parked in the kernel's acquire.

`int32` / `atomic_t` fields are integers kept in the 32-bit two's complement
range by `wrap32` after every arithmetic operation.
-/

namespace BfsLock

/-! ## Status codes and machine integers -/

/-- Modelled from the spec: the "success" status.  Its header is outside the
sources; `InitCheck` treats every handle `< B_OK` as an error, so it is 0. -/
def B_OK : Int := 0

/-- Modelled from the spec: the generic failure status that the fast
`LockWrite` returns; its header is outside the sources. -/
def B_ERROR : Int := -1

/-- Modelled from the spec: the status of an acquire that "returns a timeout
error if not acquired in time".  The header that defines the number is not part
of the sources; only `B_TIMED_OUT ≠ B_OK` is ever used. -/
def B_TIMED_OUT : Int := -2

/-- Modelled from the spec: the timeout value for "a timeout of infinite blocks
indefinitely".  The macro is defined outside the sources; the number stands for
the one value that never expires. -/
def INFINITE : Int := -1

/-- The constant `#define MAX_READERS 100000`. -/
def MAX_READERS : Int := 100000

/-- Two's complement reduction of an integer to the `int32` range. -/
def wrap32 (x : Int) : Int := (x + 2 ^ 31) % 2 ^ 32 - 2 ^ 31

/-- The result of a call that may suspend the caller: it returned `status`
leaving the object in state `s`, or the caller is parked inside the kernel
acquire with the object in state `s`. -/
inductive Outcome (σ : Type) where
  | returned (status : Int) (s : σ)
  | blocked (s : σ)
  deriving DecidableEq, Repr

/-! ## The kernel semaphore -/

/-- Modelled from the spec: the kernel's counting semaphore, "a primitive
holding a non-negative count of available units".  `acquires` and `releases`
count the calls of the acquire and the release entry points, the call counter
of a test double. -/
structure KSem where
  units : Nat
  acquires : Nat
  releases : Nat
  deriving DecidableEq, Repr

/-- Modelled from the spec: `create_semaphore(name, count, flags)` gives a
semaphore holding `count` units. -/
def create_semaphore (count : Nat) : KSem :=
  { units := count, acquires := 0, releases := 0 }

/-- Modelled from the spec: `lock_semaphore(sem)`, "acquire blocks until a unit
exists and consumes it". -/
def lock_semaphore (k : KSem) : Outcome KSem :=
  if 0 < k.units then
    .returned B_OK { k with units := k.units - 1, acquires := k.acquires + 1 }
  else
    .blocked { k with acquires := k.acquires + 1 }

/-- Modelled from the spec: `lock_semaphore_timeout(sem, timeout)`, the acquire
of one unit "honoring timeout; a timeout of infinite blocks indefinitely, any
other value returns a timeout error if not acquired in time".  The second
argument is the time to wait, as in `lock_semaphore_timeout(fSemaphore, timeout)`
of `RecursiveLock::LockWithTimeout`; it is never a number of units. -/
def lock_semaphore_timeout (k : KSem) (timeout : Int) : Outcome KSem :=
  if 0 < k.units then
    .returned B_OK { k with units := k.units - 1, acquires := k.acquires + 1 }
  else if timeout = INFINITE then
    .blocked { k with acquires := k.acquires + 1 }
  else
    .returned B_TIMED_OUT { k with acquires := k.acquires + 1 }

/-- Modelled from the spec: a caller parked in the acquire is handed a unit as
soon as one exists; `none` while there is none. -/
def wake (k : KSem) : Option KSem :=
  if 0 < k.units then some { k with units := k.units - 1 } else none

/-- Modelled from the spec: `unlock_semaphore_ex(sem, count)` releases `count`
units at once. -/
def unlock_semaphore_ex (k : KSem) (count : Int) : Int × KSem :=
  (B_OK, { k with units := k.units + count.toNat, releases := k.releases + 1 })

/-- Modelled from the spec: `unlock_semaphore(sem)`, "release adds a unit". -/
def unlock_semaphore (k : KSem) : Int × KSem :=
  (B_OK, { k with units := k.units + 1, releases := k.releases + 1 })

/-! ## Atomic operations on an `atomic_t` -/

/-- Modelled from the spec: `atomic_add(&v, i)` adds `i` and returns "the value
observed before" the addition.  The pair is (returned value, stored value). -/
def atomic_add (v i : Int) : Int × Int := (v, wrap32 (v + i))

/-- Modelled from the spec: `atomic_inc(&v)` stores `v + 1`. -/
def atomic_inc (v : Int) : Int := wrap32 (v + 1)

/-- Modelled from the spec: `atomic_dec(&v)` stores `v - 1`. -/
def atomic_dec (v : Int) : Int := wrap32 (v - 1)

/-- Modelled from the spec: `atomic_read(&v)` is the stored value. -/
def atomic_read (v : Int) : Int := v

/-! ## Semaphore -/

/-- The class `Semaphore`: the kernel semaphore `fSemaphore` and, when
`USE_BENAPHORE` is defined, the counter `fCount` (unused otherwise). -/
structure Semaphore where
  fSemaphore : KSem
  fCount : Int
  deriving DecidableEq, Repr

namespace Semaphore

/-- The constructor: `create_semaphore(name, 0, 0)` and `atomic_set(&fCount, 1)`
under `USE_BENAPHORE`, `create_semaphore(name, 1, 0)` otherwise. -/
def new (USE_BENAPHORE : Bool) : Semaphore :=
  if USE_BENAPHORE then { fSemaphore := create_semaphore 0, fCount := 1 }
  else { fSemaphore := create_semaphore 1, fCount := 0 }

/-- The statement `return lock_semaphore(fSemaphore)` of `Lock`. -/
def acquire (s : Semaphore) : Outcome Semaphore :=
  match lock_semaphore s.fSemaphore with
  | .returned st k => .returned st { s with fSemaphore := k }
  | .blocked k => .blocked { s with fSemaphore := k }

/-- `Lock`: under `USE_BENAPHORE`, `atomic_dec(&fCount)` and the kernel acquire
only `if (atomic_read(&fCount) < 0)`, else `B_OK`; without it, the kernel
acquire. -/
def Lock (USE_BENAPHORE : Bool) (s : Semaphore) : Outcome Semaphore :=
  if USE_BENAPHORE then
    let s1 := { s with fCount := atomic_dec s.fCount }
    if atomic_read s1.fCount < 0 then s1.acquire else .returned B_OK s1
  else s.acquire

/-- The statement `return unlock_semaphore(fSemaphore)` of `Unlock`. -/
def release (s : Semaphore) : Int × Semaphore :=
  ((unlock_semaphore s.fSemaphore).1, { s with fSemaphore := (unlock_semaphore s.fSemaphore).2 })

/-- `Unlock`: under `USE_BENAPHORE`, `atomic_inc(&fCount)` and the kernel
release only `if (atomic_read(&fCount) <= 0)`, else `B_OK`; without it, the
kernel release. -/
def Unlock (USE_BENAPHORE : Bool) (s : Semaphore) : Int × Semaphore :=
  if USE_BENAPHORE then
    let s1 := { s with fCount := atomic_inc s.fCount }
    if atomic_read s1.fCount ≤ 0 then s1.release else (B_OK, s1)
  else s.release

end Semaphore

/-- The two calls of a `Semaphore`. -/
inductive SemCall where
  | Lock
  | Unlock
  deriving DecidableEq, Repr

/-- Checks a sequence of calls, starting with a `Lock()` outstanding or not
(`held`): at most one `Lock()` is outstanding at any point and no `Unlock()`
precedes its `Lock()`. -/
def oneOutstanding (held : Bool) : List SemCall → Bool
  | [] => true
  | .Lock :: cs => !held && oneOutstanding true cs
  | .Unlock :: cs => held && oneOutstanding false cs

/-- Runs a sequence of calls on a `Semaphore` and collects, with each call, the
status it returned and the value of `fCount` after it.  `none` if a call parks
its caller. -/
def semRun (USE_BENAPHORE : Bool) (s : Semaphore) :
    List SemCall → Option (List (SemCall × Int × Int) × Semaphore)
  | [] => some ([], s)
  | .Lock :: cs =>
      match s.Lock USE_BENAPHORE with
      | .returned st s1 =>
          (semRun USE_BENAPHORE s1 cs).map fun r => ((.Lock, st, s1.fCount) :: r.1, r.2)
      | .blocked _ => none
  | .Unlock :: cs =>
      let r1 := s.Unlock USE_BENAPHORE
      (semRun USE_BENAPHORE r1.2 cs).map fun r => ((.Unlock, r1.1, r1.2.fCount) :: r.1, r.2)

/-! ## RecursiveLock -/

/-- The class `RecursiveLock`: the kernel semaphore, the counter `fCount` of
`USE_BENAPHORE` (unused otherwise), the owner `fOwner` (`-1` for none) and the
depth `fOwnerCount`, an `int32`. -/
structure RecursiveLock where
  fSemaphore : KSem
  fCount : Int
  fOwner : Int
  fOwnerCount : Int
  deriving DecidableEq, Repr

/-- Modelled from the spec: `panic`, defined outside the sources, is the fatal
report that "must halt the offending thread/process", so a call that reaches it
ends there.  `RecursiveLock::Unlock` thus either returned a status, or stopped in
`panic("RecursiveLock unlocked by %ld, owned by %ld\n", thread, fOwner)` with the
lock in state `s`. -/
inductive UnlockResult where
  | returned (status : Int) (s : RecursiveLock)
  | panic (thread owner : Int) (s : RecursiveLock)
  deriving DecidableEq, Repr

namespace RecursiveLock

/-- The constructor: the semaphore as for `Semaphore`, `fOwner(-1)`.  It has no
initialiser for `fOwnerCount`, which keeps whatever `int32` the memory held:
`garbage`. -/
def new (USE_BENAPHORE : Bool) (garbage : Int) : RecursiveLock :=
  if USE_BENAPHORE then
    { fSemaphore := create_semaphore 0, fCount := 1, fOwner := -1,
      fOwnerCount := wrap32 garbage }
  else
    { fSemaphore := create_semaphore 1, fCount := 0, fOwner := -1,
      fOwnerCount := wrap32 garbage }

/-- The statement `status = lock_semaphore_timeout(fSemaphore, timeout)`. -/
def acquire (s : RecursiveLock) (timeout : Int) : Outcome RecursiveLock :=
  match lock_semaphore_timeout s.fSemaphore timeout with
  | .returned st k => .returned st { s with fSemaphore := k }
  | .blocked k => .blocked { s with fSemaphore := k }

/-- The tail of `LockWithTimeout`: `if (status == B_OK) { fOwner = thread;
fOwnerCount = 1; } return status;`. -/
def own (thread status : Int) (s : RecursiveLock) : Outcome RecursiveLock :=
  if status = B_OK then .returned status { s with fOwner := thread, fOwnerCount := 1 }
  else .returned status s

/-- `LockWithTimeout(timeout)` called by `thread`. -/
def LockWithTimeout (USE_BENAPHORE : Bool) (thread timeout : Int) (s : RecursiveLock) :
    Outcome RecursiveLock :=
  if thread = s.fOwner then
    .returned B_OK { s with fOwnerCount := wrap32 (s.fOwnerCount + 1) }
  else
    let status : Outcome RecursiveLock :=
      if USE_BENAPHORE then
        let s1 := { s with fCount := atomic_dec s.fCount }
        if atomic_read s1.fCount ≥ 0 then .returned B_OK s1 else s1.acquire timeout
      else s.acquire timeout
    match status with
    | .returned st s2 => own thread st s2
    | .blocked s2 => .blocked s2

/-- `Lock()`: `return LockWithTimeout(INFINITE)`. -/
def Lock (USE_BENAPHORE : Bool) (thread : Int) (s : RecursiveLock) : Outcome RecursiveLock :=
  LockWithTimeout USE_BENAPHORE thread INFINITE s

/-- The statement `return unlock_semaphore(fSemaphore)` of `Unlock`. -/
def release (s : RecursiveLock) : UnlockResult :=
  .returned (unlock_semaphore s.fSemaphore).1
    { s with fSemaphore := (unlock_semaphore s.fSemaphore).2 }

/-- `Unlock()` called by `thread`: the `panic` if `thread != fOwner`; otherwise
`--fOwnerCount`, and at 0 `fOwner = -1` and the release of the semaphore. -/
def Unlock (USE_BENAPHORE : Bool) (thread : Int) (s : RecursiveLock) : UnlockResult :=
  if thread ≠ s.fOwner then .panic thread s.fOwner s
  else
    let s1 := { s with fOwnerCount := wrap32 (s.fOwnerCount - 1) }
    if s1.fOwnerCount = 0 then
      let s2 := { s1 with fOwner := -1 }
      if USE_BENAPHORE then
        let s3 := { s2 with fCount := atomic_inc s2.fCount }
        if atomic_read s3.fCount ≤ 0 then s3.release else .returned B_OK s3
      else s2.release
    else .returned B_OK s1

end RecursiveLock

/-- The calls threads make on a `RecursiveLock`. -/
inductive RecCall where
  | Lock (thread : Int)
  | LockWithTimeout (thread timeout : Int)
  | Unlock (thread : Int)
  deriving DecidableEq, Repr

/-- One completed call on a `RecursiveLock`, with the status it returned.
`none` when the call does not return in this state: the caller is parked in the
kernel, or stopped in `panic`. -/
def recStep (USE_BENAPHORE : Bool) (s : RecursiveLock) : RecCall → Option (Int × RecursiveLock)
  | .Lock t =>
      match s.Lock USE_BENAPHORE t with
      | .returned st s1 => some (st, s1)
      | .blocked _ => none
  | .LockWithTimeout t timeout =>
      match s.LockWithTimeout USE_BENAPHORE t timeout with
      | .returned st s1 => some (st, s1)
      | .blocked _ => none
  | .Unlock t =>
      match s.Unlock USE_BENAPHORE t with
      | .returned st s1 => some (st, s1)
      | .panic _ _ _ => none

/-- Runs a sequence of calls and collects the statuses returned.  `none` if a
call does not return. -/
def recRun (USE_BENAPHORE : Bool) (s : RecursiveLock) :
    List RecCall → Option (List Int × RecursiveLock)
  | [] => some ([], s)
  | c :: cs =>
      match recStep USE_BENAPHORE s c with
      | some (st, s1) => (recRun USE_BENAPHORE s1 cs).map fun r => (st :: r.1, r.2)
      | none => none

/-- A caller parked in `lock_semaphore_timeout` inside `LockWithTimeout` is
handed a unit: the acquire returns `B_OK` and the tail of the function runs.
`none` while the semaphore has no unit. -/
def RecursiveLock.resume (thread : Int) (s : RecursiveLock) : Option RecursiveLock :=
  match wake s.fSemaphore with
  | some k =>
      match RecursiveLock.own thread B_OK { s with fSemaphore := k } with
      | .returned _ s1 => some s1
      | .blocked _ => none
  | none => none

/-- What happens to a `RecursiveLock`: a thread calls `Lock()`,
`LockWithTimeout(timeout)` or `Unlock()`, or a caller parked in the acquire is
handed the semaphore. -/
inductive RecEvent where
  | Lock (thread : Int)
  | LockWithTimeout (thread timeout : Int)
  | Unlock (thread : Int)
  | Resumed (thread : Int)
  deriving DecidableEq, Repr

/-- The thread an event belongs to. -/
def RecEvent.thread : RecEvent → Int
  | .Lock t => t
  | .LockWithTimeout t _ => t
  | .Unlock t => t
  | .Resumed t => t

/-- The state in which an event leaves the lock: the state a call returned
with, the state in which it parked its caller, or (for an `Unlock()` stopped in
`panic`) the state at the `panic`.  `none` for a parked caller when the
semaphore has no unit to hand out. -/
def recApply (USE_BENAPHORE : Bool) (s : RecursiveLock) : RecEvent → Option RecursiveLock
  | .Lock t =>
      match s.Lock USE_BENAPHORE t with
      | .returned _ s1 => some s1
      | .blocked s1 => some s1
  | .LockWithTimeout t timeout =>
      match s.LockWithTimeout USE_BENAPHORE t timeout with
      | .returned _ s1 => some s1
      | .blocked s1 => some s1
  | .Unlock t =>
      match s.Unlock USE_BENAPHORE t with
      | .returned _ s1 => some s1
      | .panic _ _ s1 => some s1
  | .Resumed t => s.resume t

/-- The state after a sequence of events, `none` if one cannot happen. -/
def recTrace (USE_BENAPHORE : Bool) (s : RecursiveLock) : List RecEvent → Option RecursiveLock
  | [] => some s
  | e :: es => (recApply USE_BENAPHORE s e).bind fun s1 => recTrace USE_BENAPHORE s1 es

/-- An event that would overflow the `int32` depth: a lock call by the owner at
depth `2^31 - 1`. -/
def RecEvent.overflows (s : RecursiveLock) : RecEvent → Bool
  | .Lock t => t = s.fOwner && s.fOwnerCount = 2 ^ 31 - 1
  | .LockWithTimeout t _ => t = s.fOwner && s.fOwnerCount = 2 ^ 31 - 1
  | _ => false

/-- No event of the sequence overflows the depth. -/
def depthInRange (USE_BENAPHORE : Bool) (s : RecursiveLock) : List RecEvent → Bool
  | [] => true
  | e :: es =>
      !e.overflows s &&
        match recApply USE_BENAPHORE s e with
        | some s1 => depthInRange USE_BENAPHORE s1 es
        | none => true

/-- The invariant of the data model: `depth > 0 ⇔ owner ≠ none`. -/
def RecursiveLock.depthIffOwned (s : RecursiveLock) : Prop :=
  0 < s.fOwnerCount ↔ s.fOwner ≠ -1

/-! ## ReadWriteLock, the fast variant (`FAST_LOCK` defined) -/

/-- The class `ReadWriteLock` of the `#ifdef FAST_LOCK` branch. -/
structure FastReadWriteLock where
  fSemaphore : KSem
  fCount : Int
  fWriteLock : Semaphore
  deriving DecidableEq, Repr

/-- The result of the fast `LockWrite`: it returned, or its caller is parked in
`fWriteLock.Lock()`, or in `lock_semaphore_timeout(fSemaphore, INFINITE)`. -/
inductive WriteOutcome where
  | returned (status : Int) (l : FastReadWriteLock)
  | blockedOnWriteLock (l : FastReadWriteLock)
  | blockedOnSemaphore (l : FastReadWriteLock)
  deriving DecidableEq, Repr

namespace FastReadWriteLock

/-- The constructor and `Initialize`: `fWriteLock(name)`,
`fSemaphore = create_semaphore(name, 0, 0)`, `fCount = MAX_READERS`. -/
def Initialize (USE_BENAPHORE : Bool) : FastReadWriteLock :=
  { fSemaphore := create_semaphore 0, fCount := MAX_READERS,
    fWriteLock := Semaphore.new USE_BENAPHORE }

/-- `Lock`: `if (atomic_add(&fCount, -1) <= 0) return lock_semaphore(fSemaphore);
return B_OK;`. -/
def Lock (l : FastReadWriteLock) : Outcome FastReadWriteLock :=
  let r := atomic_add l.fCount (-1)
  let l1 := { l with fCount := r.2 }
  if r.1 ≤ 0 then
    match lock_semaphore l1.fSemaphore with
    | .returned st k => .returned st { l1 with fSemaphore := k }
    | .blocked k => .blocked { l1 with fSemaphore := k }
  else .returned B_OK l1

/-- A reader parked in `lock_semaphore` inside `Lock` is handed a unit and
`Lock` returns `B_OK`. -/
def Lock_resume (l : FastReadWriteLock) : Option FastReadWriteLock :=
  (wake l.fSemaphore).map fun k => { l with fSemaphore := k }

/-- `Unlock`: `if (atomic_add(&fCount, 1) < 0) unlock_semaphore(fSemaphore);`. -/
def Unlock (l : FastReadWriteLock) : FastReadWriteLock :=
  let r := atomic_add l.fCount 1
  let l1 := { l with fCount := r.2 }
  if r.1 < 0 then { l1 with fSemaphore := (unlock_semaphore l1.fSemaphore).2 } else l1

/-- The end of `LockWrite`: `fWriteLock.Unlock(); return status;`. -/
def LockWrite_finish (USE_BENAPHORE : Bool) (status : Int) (l : FastReadWriteLock) :
    WriteOutcome :=
  .returned status { l with fWriteLock := (l.fWriteLock.Unlock USE_BENAPHORE).2 }

/-- `LockWrite` once `fWriteLock` is held: `readers = atomic_add(&fCount,
-MAX_READERS)`, and `if (readers < MAX_READERS)` the acquire
`lock_semaphore_timeout(fSemaphore, INFINITE)`; then the end of the function. -/
def LockWrite_serialized (USE_BENAPHORE : Bool) (l : FastReadWriteLock) : WriteOutcome :=
  let r := atomic_add l.fCount (-MAX_READERS)
  let readers := r.1
  let l1 := { l with fCount := r.2 }
  if readers < MAX_READERS then
    match lock_semaphore_timeout l1.fSemaphore INFINITE with
    | .returned status k => LockWrite_finish USE_BENAPHORE status { l1 with fSemaphore := k }
    | .blocked k => .blockedOnSemaphore { l1 with fSemaphore := k }
  else LockWrite_finish USE_BENAPHORE B_OK l1

/-- `LockWrite`: `if (fWriteLock.Lock() < B_OK) return B_ERROR;` and the rest. -/
def LockWrite (USE_BENAPHORE : Bool) (l : FastReadWriteLock) : WriteOutcome :=
  match l.fWriteLock.Lock USE_BENAPHORE with
  | .returned st w =>
      if st < B_OK then .returned B_ERROR { l with fWriteLock := w }
      else LockWrite_serialized USE_BENAPHORE { l with fWriteLock := w }
  | .blocked w => .blockedOnWriteLock { l with fWriteLock := w }

/-- A writer parked in `fWriteLock.Lock()` is handed its unit; `Lock()` returns
`B_OK` and `LockWrite` goes on. -/
def LockWrite_resumeWriteLock (USE_BENAPHORE : Bool) (l : FastReadWriteLock) :
    Option WriteOutcome :=
  (wake l.fWriteLock.fSemaphore).map fun k =>
    LockWrite_serialized USE_BENAPHORE { l with fWriteLock := { l.fWriteLock with fSemaphore := k } }

/-- A writer parked in `lock_semaphore_timeout(fSemaphore, INFINITE)` is handed
a unit; the acquire returns `B_OK` and `LockWrite` ends. -/
def LockWrite_resumeSemaphore (USE_BENAPHORE : Bool) (l : FastReadWriteLock) :
    Option WriteOutcome :=
  (wake l.fSemaphore).map fun k =>
    LockWrite_finish USE_BENAPHORE B_OK { l with fSemaphore := k }

/-- `UnlockWrite`: `readers = atomic_add(&fCount, MAX_READERS)` and
`if (readers < 0) unlock_semaphore_ex(fSemaphore,
readers <= -MAX_READERS ? 1 : -readers)`. -/
def UnlockWrite (l : FastReadWriteLock) : FastReadWriteLock :=
  let r := atomic_add l.fCount MAX_READERS
  let readers := r.1
  let l1 := { l with fCount := r.2 }
  if readers < 0 then
    { l1 with fSemaphore :=
        (unlock_semaphore_ex l1.fSemaphore (if readers ≤ -MAX_READERS then 1 else -readers)).2 }
  else l1

end FastReadWriteLock

/-! ## ReadWriteLock, the simple variant (`FAST_LOCK` undefined) -/

/-- The class `ReadWriteLock` of the `#else` branch: one kernel semaphore. -/
structure ReadWriteLock where
  fSemaphore : KSem
  deriving DecidableEq, Repr

namespace ReadWriteLock

/-- `Initialize`: `fSemaphore = create_semaphore(name, MAX_READERS, 0)`. -/
def Initialize : ReadWriteLock :=
  { fSemaphore := create_semaphore MAX_READERS.toNat }

/-- `Lock`: `return lock_semaphore(fSemaphore)`. -/
def Lock (l : ReadWriteLock) : Outcome ReadWriteLock :=
  match lock_semaphore l.fSemaphore with
  | .returned st k => .returned st { fSemaphore := k }
  | .blocked k => .blocked { fSemaphore := k }

/-- `Unlock`: `unlock_semaphore(fSemaphore)`. -/
def Unlock (l : ReadWriteLock) : ReadWriteLock :=
  { fSemaphore := (unlock_semaphore l.fSemaphore).2 }

/-- `LockWrite`: `return lock_semaphore_timeout(fSemaphore, MAX_READERS)`. -/
def LockWrite (l : ReadWriteLock) : Outcome ReadWriteLock :=
  match lock_semaphore_timeout l.fSemaphore MAX_READERS with
  | .returned st k => .returned st { fSemaphore := k }
  | .blocked k => .blocked { fSemaphore := k }

/-- `UnlockWrite`: `unlock_semaphore_ex(fSemaphore, MAX_READERS)`. -/
def UnlockWrite (l : ReadWriteLock) : ReadWriteLock :=
  { fSemaphore := (unlock_semaphore_ex l.fSemaphore MAX_READERS).2 }

end ReadWriteLock

/-- The guard `WriteLocked` constructed and destroyed at once: the constructor
stores `lock.LockWrite()` in `fStatus`, the destructor calls `UnlockWrite()` if
`fStatus == B_OK`.  `none` when the constructor does not return. -/
def WriteLocked_scope (l : ReadWriteLock) : Option (Int × ReadWriteLock) :=
  match l.LockWrite with
  | .returned fStatus l1 =>
      if fStatus = B_OK then some (fStatus, l1.UnlockWrite) else some (fStatus, l1)
  | .blocked _ => none

/-- A simple `ReadWriteLock` together with the threads that have returned from
`Lock()` (`readers`) or `LockWrite()` with `B_OK` (`writers`) and have not yet
called the matching unlock. -/
structure RWSystem where
  lock : ReadWriteLock
  readers : List Int
  writers : List Int
  deriving DecidableEq, Repr

/-- The calls threads make on a reader/writer lock. -/
inductive RWCall where
  | Lock (thread : Int)
  | Unlock (thread : Int)
  | LockWrite (thread : Int)
  | UnlockWrite (thread : Int)
  deriving DecidableEq, Repr

/-- One completed call.  `none` when the call cannot complete in this state: an
acquire that finds no unit, or an unlock by a thread that holds nothing. -/
def rwStep (s : RWSystem) : RWCall → Option RWSystem
  | .Lock t =>
      match s.lock.Lock with
      | .returned st l =>
          if st = B_OK then some { s with lock := l, readers := t :: s.readers }
          else some { s with lock := l }
      | .blocked _ => none
  | .Unlock t =>
      if t ∈ s.readers then
        some { s with lock := s.lock.Unlock, readers := s.readers.erase t }
      else none
  | .LockWrite t =>
      match s.lock.LockWrite with
      | .returned st l =>
          if st = B_OK then some { s with lock := l, writers := t :: s.writers }
          else some { s with lock := l }
      | .blocked _ => none
  | .UnlockWrite t =>
      if t ∈ s.writers then
        some { s with lock := s.lock.UnlockWrite, writers := s.writers.erase t }
      else none

/-- The state after a sequence of completed calls, `none` if one cannot
complete. -/
def rwRun (s : RWSystem) : List RWCall → Option RWSystem
  | [] => some s
  | c :: cs => (rwStep s c).bind fun s1 => rwRun s1 cs

/-- A freshly initialised simple lock that nobody holds. -/
def rwInit : RWSystem :=
  { lock := ReadWriteLock.Initialize, readers := [], writers := [] }

/-- A fast `ReadWriteLock` together with the threads inside it: those that
returned from `Lock()` (`readers`) or from `LockWrite()` with `B_OK` (`writers`)
and have not yet called the matching unlock, and those parked in the kernel:
readers in `lock_semaphore` (`parkedReaders`), writers in
`lock_semaphore_timeout` (`parkedWriters`) or in `fWriteLock.Lock()`
(`queuedWriters`). -/
structure FastSystem where
  lock : FastReadWriteLock
  readers : List Int
  writers : List Int
  parkedReaders : List Int
  parkedWriters : List Int
  queuedWriters : List Int
  deriving DecidableEq, Repr

/-- What happens to a fast lock: a thread calls one of the four functions, or
the kernel hands a unit to a parked thread. -/
inductive FastEvent where
  | Lock (thread : Int)
  | Unlock (thread : Int)
  | LockWrite (thread : Int)
  | UnlockWrite (thread : Int)
  | ReaderWoken (thread : Int)
  | WriterWoken (thread : Int)
  | WriterSerialized (thread : Int)
  deriving DecidableEq, Repr

/-- Records where `thread` is after (a part of) its `LockWrite()` ended in `o`. -/
def FastSystem.afterLockWrite (s : FastSystem) (thread : Int) : WriteOutcome → FastSystem
  | .returned st l =>
      if st = B_OK then { s with lock := l, writers := thread :: s.writers }
      else { s with lock := l }
  | .blockedOnWriteLock l => { s with lock := l, queuedWriters := thread :: s.queuedWriters }
  | .blockedOnSemaphore l => { s with lock := l, parkedWriters := thread :: s.parkedWriters }

/-- One event.  `none` when it cannot happen in this state: an unlock by a
thread that holds nothing, or a wake-up of a thread that is not parked or for
which the semaphore has no unit. -/
def fastStep (USE_BENAPHORE : Bool) (s : FastSystem) : FastEvent → Option FastSystem
  | .Lock t =>
      match s.lock.Lock with
      | .returned st l =>
          if st = B_OK then some { s with lock := l, readers := t :: s.readers }
          else some { s with lock := l }
      | .blocked l => some { s with lock := l, parkedReaders := t :: s.parkedReaders }
  | .Unlock t =>
      if t ∈ s.readers then
        some { s with lock := s.lock.Unlock, readers := s.readers.erase t }
      else none
  | .LockWrite t => some (s.afterLockWrite t (s.lock.LockWrite USE_BENAPHORE))
  | .UnlockWrite t =>
      if t ∈ s.writers then
        some { s with lock := s.lock.UnlockWrite, writers := s.writers.erase t }
      else none
  | .ReaderWoken t =>
      if t ∈ s.parkedReaders then
        s.lock.Lock_resume.map fun l =>
          { s with lock := l, readers := t :: s.readers,
                   parkedReaders := s.parkedReaders.erase t }
      else none
  | .WriterWoken t =>
      if t ∈ s.parkedWriters then
        (s.lock.LockWrite_resumeSemaphore USE_BENAPHORE).map fun o =>
          { s with parkedWriters := s.parkedWriters.erase t }.afterLockWrite t o
      else none
  | .WriterSerialized t =>
      if t ∈ s.queuedWriters then
        (s.lock.LockWrite_resumeWriteLock USE_BENAPHORE).map fun o =>
          { s with queuedWriters := s.queuedWriters.erase t }.afterLockWrite t o
      else none

/-- The state after a sequence of events, `none` if one cannot happen. -/
def fastRun (USE_BENAPHORE : Bool) (s : FastSystem) : List FastEvent → Option FastSystem
  | [] => some s
  | e :: es => (fastStep USE_BENAPHORE s e).bind fun s1 => fastRun USE_BENAPHORE s1 es

/-- A freshly initialised fast lock with no thread inside. -/
def fastInit (USE_BENAPHORE : Bool) : FastSystem :=
  { lock := FastReadWriteLock.Initialize USE_BENAPHORE, readers := [], writers := [],
    parkedReaders := [], parkedWriters := [], queuedWriters := [] }

/-! ## Readers alone on the fast ReadWriteLock -/

/-- The two calls of a reader. -/
inductive ReadCall where
  | Lock
  | Unlock
  deriving DecidableEq, Repr

/-- Checks a sequence of reader calls, starting with `held` read locks
outstanding: the number of outstanding read locks never exceeds `MAX_READERS`
and never drops below 0. -/
def readersWithin (held : Nat) : List ReadCall → Bool
  | [] => true
  | .Lock :: cs => decide ((held : Int) + 1 ≤ MAX_READERS) && readersWithin (held + 1) cs
  | .Unlock :: cs => decide (1 ≤ held) && readersWithin (held - 1) cs

/-- What the contract expects of a sequence of reader calls that starts with
`held` read locks outstanding: with each call the status returned (`B_OK` for
`Lock()`, none for the `void Unlock()`) and the counter after it, `MAX_READERS`
minus the outstanding read locks. -/
def readersExpected (held : Nat) : List ReadCall → List (ReadCall × Option Int × Int)
  | [] => []
  | .Lock :: cs =>
      (.Lock, some B_OK, MAX_READERS - ((held + 1 : Nat) : Int)) :: readersExpected (held + 1) cs
  | .Unlock :: cs =>
      (.Unlock, none, MAX_READERS - ((held - 1 : Nat) : Int)) :: readersExpected (held - 1) cs

/-- Runs a sequence of reader calls on a fast lock and collects, with each call,
the status it returned and the value of `fCount` after it.  `none` if a `Lock()`
parks its caller. -/
def fastReadRun (l : FastReadWriteLock) :
    List ReadCall → Option (List (ReadCall × Option Int × Int) × FastReadWriteLock)
  | [] => some ([], l)
  | .Lock :: cs =>
      match l.Lock with
      | .returned st l1 =>
          (fastReadRun l1 cs).map fun r => ((.Lock, some st, l1.fCount) :: r.1, r.2)
      | .blocked _ => none
  | .Unlock :: cs =>
      (fastReadRun l.Unlock cs).map fun r => ((.Unlock, none, l.Unlock.fCount) :: r.1, r.2)

/-! ## Semaphore::InitCheck -/

/-- `Semaphore::InitCheck`, on the `sem_id` handle that `create_semaphore`
returned into `fSemaphore`: `if (fSemaphore < B_OK) return fSemaphore;
return B_OK;`. -/
def Semaphore.InitCheck (fSemaphore : Int) : Int :=
  if fSemaphore < B_OK then fSemaphore else B_OK

/-! ## SimpleLock -/

/-- The class `SimpleLock`: the holder `fHolder` (`-1` for none) and the depth
`fCount`, both `atomic_t`. -/
structure SimpleLock where
  fHolder : Int
  fCount : Int
  deriving DecidableEq, Repr

/-- One pass through the body of `while (1)` in `SimpleLock::Lock`: the loop was
left by a `break`, or the pass ended in `snooze(time)`. -/
inductive Pass where
  | left (s : SimpleLock)
  | snoozed (s : SimpleLock)
  deriving DecidableEq, Repr

/-- How far a `SimpleLock::Lock` call has come: it returned `status` after
`snoozes` sleeps, or it is still in the loop after `snoozes` sleeps. -/
inductive LockRun where
  | returned (status : Int) (snoozes : Nat) (s : SimpleLock)
  | spinning (snoozes : Nat) (s : SimpleLock)
  deriving DecidableEq, Repr

namespace SimpleLock

/-- The constructor: `atomic_set(&fCount, 0); atomic_set(&fHolder, -1);`. -/
def new : SimpleLock := { fHolder := -1, fCount := 0 }

/-- The body of the loop, run by `thisThread` with no other thread in between:
`if ((current = atomic_read(&fHolder)) == -1) atomic_set(&fHolder, thisThread);
if (current == -1) break; if (current == thisThread) break; snooze(time);`. -/
def pass (thisThread : Int) (s : SimpleLock) : Pass :=
  let current := atomic_read s.fHolder
  let s1 := if current = -1 then { s with fHolder := thisThread } else s
  if current = -1 then .left s1
  else if current = thisThread then .left s1
  else .snoozed s1

/-- `Lock(time)` called by `thisThread`, followed through at most `passes` passes
of its loop while no other thread touches the lock; after the loop,
`atomic_inc(&fCount); return B_OK;`. -/
def Lock (thisThread : Int) (s : SimpleLock) : (passes : Nat) → LockRun
  | 0 => .spinning 0 s
  | n + 1 =>
      match pass thisThread s with
      | .left s1 => .returned B_OK 0 { s1 with fCount := atomic_inc s1.fCount }
      | .snoozed s1 =>
          match Lock thisThread s1 n with
          | .returned st k s2 => .returned st (k + 1) s2
          | .spinning k s2 => .spinning (k + 1) s2

/-- `Unlock()`: `atomic_dec(&fCount); if (atomic_read(&fCount) == 0)
atomic_set(&fHolder, -1);`.  The function does not ask for the calling thread. -/
def Unlock (s : SimpleLock) : SimpleLock :=
  let s1 := { s with fCount := atomic_dec s.fCount }
  if atomic_read s1.fCount = 0 then { s1 with fHolder := -1 } else s1

/-- `IsLocked()` called by `thread`:
`return atomic_read(&fHolder) == current_thread_id(NULL);`. -/
def IsLocked (thread : Int) (s : SimpleLock) : Bool :=
  atomic_read s.fHolder = thread

end SimpleLock

/-- The calls threads make on a `SimpleLock`. -/
inductive SimpleCall where
  | Lock (thread : Int)
  | Unlock (thread : Int)
  deriving DecidableEq, Repr

/-- The thread that makes a call. -/
def SimpleCall.thread : SimpleCall → Int
  | .Lock t => t
  | .Unlock t => t

/-- One completed call on a `SimpleLock`, with the status and the number of
`snooze` calls of a `Lock()`.  `none` for a `Lock()` that does not leave its loop
in this state. -/
def simpleStep (s : SimpleLock) : SimpleCall → Option (Option (Int × Nat) × SimpleLock)
  | .Lock t =>
      match s.Lock t 1 with
      | .returned st k s1 => some (some (st, k), s1)
      | .spinning _ _ => none
  | .Unlock _ => some (none, s.Unlock)

/-- Runs a sequence of completed calls and collects what the `Lock()` calls
returned.  `none` if a `Lock()` does not leave its loop. -/
def simpleRun (s : SimpleLock) : List SimpleCall → Option (List (Option (Int × Nat)) × SimpleLock)
  | [] => some ([], s)
  | c :: cs =>
      match simpleStep s c with
      | some (o, s1) => (simpleRun s1 cs).map fun r => (o :: r.1, r.2)
      | none => none

/-- A call that would overflow the `int32` depth: a `Lock()` at depth `2^31 - 1`
or an `Unlock()` at depth `-2^31`. -/
def SimpleCall.overflows (s : SimpleLock) : SimpleCall → Bool
  | .Lock _ => s.fCount = 2 ^ 31 - 1
  | .Unlock _ => s.fCount = -2 ^ 31

/-- No call of the sequence overflows the depth. -/
def simpleInRange (s : SimpleLock) : List SimpleCall → Bool
  | [] => true
  | c :: cs =>
      !c.overflows s &&
        match simpleStep s c with
        | some (_, s1) => simpleInRange s1 cs
        | none => true

/-- The invariant of the data model: `depth > 0 ⇒ holder ≠ none`. -/
def SimpleLock.depthImpliesHeld (s : SimpleLock) : Prop :=
  0 < s.fCount → s.fHolder ≠ -1

/-! ## Scoped guards

Each guard keeps a reference to its lock and the status of the acquire.  The
constructor is a function from the lock to the guard and the lock after the
acquire (`none` while the acquire has its caller parked), the destructor a
function on the lock.  `ASSERT(fStatus == B_OK)` in two of the constructors is
a debugging macro defined outside the sources; it changes no state and is left
out. -/

/-- The class `Locker`: the status of `lock.Lock()`. -/
structure Locker where
  fStatus : Int
  deriving DecidableEq, Repr

namespace Locker

/-- The constructor: `fStatus = lock.Lock();`. -/
def new (USE_BENAPHORE : Bool) (lock : Semaphore) : Option (Locker × Semaphore) :=
  match lock.Lock USE_BENAPHORE with
  | .returned st l1 => some ({ fStatus := st }, l1)
  | .blocked _ => none

/-- The destructor: `if (fStatus == B_OK) fLock.Unlock();`. -/
def delete (USE_BENAPHORE : Bool) (g : Locker) (lock : Semaphore) : Semaphore :=
  if g.fStatus = B_OK then (lock.Unlock USE_BENAPHORE).2 else lock

/-- `Status()`: `return fStatus;`. -/
def Status (g : Locker) : Int := g.fStatus

end Locker

/-- The class `RecursiveLocker`: the status of `lock.Lock()`. -/
structure RecursiveLocker where
  fStatus : Int
  deriving DecidableEq, Repr

namespace RecursiveLocker

/-- The constructor, run by `thread`: `fStatus = lock.Lock();`. -/
def new (USE_BENAPHORE : Bool) (thread : Int) (lock : RecursiveLock) :
    Option (RecursiveLocker × RecursiveLock) :=
  match lock.Lock USE_BENAPHORE thread with
  | .returned st l1 => some ({ fStatus := st }, l1)
  | .blocked _ => none

/-- The destructor, run by `thread`: `if (fStatus == B_OK) fLock.Unlock();`.
`none` when `Unlock()` is not called, else the result of the one call. -/
def delete (USE_BENAPHORE : Bool) (thread : Int) (g : RecursiveLocker) (lock : RecursiveLock) :
    Option UnlockResult :=
  if g.fStatus = B_OK then some (lock.Unlock USE_BENAPHORE thread) else none

/-- `Status()`: `return fStatus;`. -/
def Status (g : RecursiveLocker) : Int := g.fStatus

end RecursiveLocker

/-- The class `ReadLocked` over the simple `ReadWriteLock`: the status of
`lock.Lock()`.  The class has no member function that reads it back. -/
structure ReadLocked where
  fStatus : Int
  deriving DecidableEq, Repr

namespace ReadLocked

/-- The constructor: `fStatus = lock.Lock();`. -/
def new (lock : ReadWriteLock) : Option (ReadLocked × ReadWriteLock) :=
  match lock.Lock with
  | .returned st l1 => some ({ fStatus := st }, l1)
  | .blocked _ => none

/-- The destructor: `if (fStatus == B_OK) fLock.Unlock();`. -/
def delete (g : ReadLocked) (lock : ReadWriteLock) : ReadWriteLock :=
  if g.fStatus = B_OK then lock.Unlock else lock

end ReadLocked

/-- The class `ReadLocked` over the fast `ReadWriteLock`. -/
structure FastReadLocked where
  fStatus : Int
  deriving DecidableEq, Repr

namespace FastReadLocked

/-- The constructor: `fStatus = lock.Lock();`. -/
def new (lock : FastReadWriteLock) : Option (FastReadLocked × FastReadWriteLock) :=
  match lock.Lock with
  | .returned st l1 => some ({ fStatus := st }, l1)
  | .blocked _ => none

/-- The destructor: `if (fStatus == B_OK) fLock.Unlock();`. -/
def delete (g : FastReadLocked) (lock : FastReadWriteLock) : FastReadWriteLock :=
  if g.fStatus = B_OK then lock.Unlock else lock

end FastReadLocked

/-- The class `WriteLocked` over the simple `ReadWriteLock`: the status of
`lock.LockWrite()`. -/
structure WriteLocked where
  fStatus : Int
  deriving DecidableEq, Repr

namespace WriteLocked

/-- The constructor: `fStatus = lock.LockWrite();`. -/
def new (lock : ReadWriteLock) : Option (WriteLocked × ReadWriteLock) :=
  match lock.LockWrite with
  | .returned st l1 => some ({ fStatus := st }, l1)
  | .blocked _ => none

/-- The destructor: `if (fStatus == B_OK) fLock.UnlockWrite();`. -/
def delete (g : WriteLocked) (lock : ReadWriteLock) : ReadWriteLock :=
  if g.fStatus = B_OK then lock.UnlockWrite else lock

/-- `IsLocked()`: `return fStatus;`. -/
def IsLocked (g : WriteLocked) : Int := g.fStatus

end WriteLocked

/-- The class `WriteLocked` over the fast `ReadWriteLock`. -/
structure FastWriteLocked where
  fStatus : Int
  deriving DecidableEq, Repr

namespace FastWriteLocked

/-- The constructor: `fStatus = lock.LockWrite();`. -/
def new (USE_BENAPHORE : Bool) (lock : FastReadWriteLock) :
    Option (FastWriteLocked × FastReadWriteLock) :=
  match lock.LockWrite USE_BENAPHORE with
  | .returned st l1 => some ({ fStatus := st }, l1)
  | .blockedOnWriteLock _ => none
  | .blockedOnSemaphore _ => none

/-- The destructor: `if (fStatus == B_OK) fLock.UnlockWrite();`. -/
def delete (g : FastWriteLocked) (lock : FastReadWriteLock) : FastReadWriteLock :=
  if g.fStatus = B_OK then lock.UnlockWrite else lock

/-- `IsLocked()`: `return fStatus;`. -/
def IsLocked (g : FastWriteLocked) : Int := g.fStatus

end FastWriteLocked

/-- The guard `SimpleLocker`, constructed and destroyed at once by `thread`: the
constructor calls `lock.Lock(time)` and drops the status, the destructor calls
`fLock.Unlock()`.  `none` while `Lock` has not left its loop after `passes`
passes. -/
def SimpleLocker_scope (thread : Int) (lock : SimpleLock) (passes : Nat) : Option SimpleLock :=
  match lock.Lock thread passes with
  | .returned _ _ l1 => some l1.Unlock
  | .spinning _ _ => none

/-! ## Two threads inside SimpleLock::Lock -/

/-- Where a thread is inside `SimpleLock::Lock`: before
`current = atomic_read(&fHolder)`; before
`if (current == -1) atomic_set(&fHolder, thisThread)`; before the two `break`
tests and `snooze`; out of the loop, before `atomic_inc(&fCount)`; returned. -/
inductive LockPc where
  | atRead
  | atSet (current : Int)
  | atTest (current : Int)
  | atInc
  | returned
  deriving DecidableEq, Repr

/-- A thread executing `SimpleLock::Lock`. -/
structure LockingThread where
  thisThread : Int
  pc : LockPc
  deriving DecidableEq, Repr

/-- The thread has left the retry loop. -/
def LockingThread.leftLoop (th : LockingThread) : Bool :=
  th.pc = .atInc || th.pc = .returned

/-- The next atomic step of a thread inside `Lock`. -/
def lockAtom (s : SimpleLock) (th : LockingThread) : SimpleLock × LockingThread :=
  match th.pc with
  | .atRead => (s, { th with pc := .atSet (atomic_read s.fHolder) })
  | .atSet current =>
      if current = -1 then ({ s with fHolder := th.thisThread }, { th with pc := .atTest current })
      else (s, { th with pc := .atTest current })
  | .atTest current =>
      if current = -1 then (s, { th with pc := .atInc })
      else if current = th.thisThread then (s, { th with pc := .atInc })
      else (s, { th with pc := .atRead })
  | .atInc => ({ s with fCount := atomic_inc s.fCount }, { th with pc := .returned })
  | .returned => (s, th)

/-- A `SimpleLock` and two threads that called `Lock()` on it. -/
structure TwoLockers where
  lock : SimpleLock
  a : LockingThread
  b : LockingThread
  deriving DecidableEq, Repr

/-- The interleaving: at each position the thread that takes its next atomic
step, `false` for `a` and `true` for `b`. -/
def twoRun (c : TwoLockers) : List Bool → TwoLockers
  | [] => c
  | false :: ws => twoRun { c with lock := (lockAtom c.lock c.a).1, a := (lockAtom c.lock c.a).2 } ws
  | true :: ws => twoRun { c with lock := (lockAtom c.lock c.b).1, b := (lockAtom c.lock c.b).2 } ws

/-! # Theorems -/

/-! ## Machine integers -/

theorem wrap32_of_int32 (x : Int) (h1 : -2 ^ 31 ≤ x) (h2 : x < 2 ^ 31) : wrap32 x = x := by
  unfold wrap32; omega

theorem wrap32_add_left (x y : Int) : wrap32 (wrap32 x + y) = wrap32 (x + y) := by
  unfold wrap32; omega

theorem wrap32_range (x : Int) : -2 ^ 31 ≤ wrap32 x ∧ wrap32 x < 2 ^ 31 := by
  unfold wrap32; omega

/-! ## The simple ReadWriteLock -/

/-- The simple `LockWrite()` returns `B_OK` whenever the semaphore holds at least
one unit, and takes one unit. -/
theorem simple_LockWrite_takes_one_unit (c a r : Nat) :
    ReadWriteLock.LockWrite ⟨⟨c + 1, a, r⟩⟩ = .returned B_OK ⟨⟨c, a + 1, r⟩⟩ := by
  simp [ReadWriteLock.LockWrite, lock_semaphore_timeout]

/-- C1 (the code at the failing input): on a freshly initialised simple lock,
after thread 1 returned from `Lock()`, thread 2's `LockWrite()` returns `B_OK` at
once, so a writer holds the lock together with one reader; and after thread 1
returned from `LockWrite()`, thread 2's `LockWrite()` returns `B_OK` as well, so
two writers hold it. -/
theorem C1_simple_writer_not_exclusive :
    (∃ s, rwRun rwInit [.Lock 1, .LockWrite 2] = some s
        ∧ s.readers = [1] ∧ s.writers = [2] ∧ s.lock.fSemaphore.units = 99998)
    ∧ (∃ s, rwRun rwInit [.LockWrite 1, .LockWrite 2] = some s
        ∧ s.readers = [] ∧ s.writers = [2, 1]) :=
  ⟨⟨_, rfl, rfl, rfl, rfl⟩, ⟨_, rfl, rfl, rfl⟩⟩

/-- C2 (the code at every count where `LockWrite()` succeeds): a `WriteLocked`
guard constructed and destroyed on a simple lock whose semaphore holds `c + 1`
units returns `B_OK` and leaves `c + 100000` units: `LockWrite` took one unit,
`UnlockWrite` gave `MAX_READERS` back. -/
theorem C2_simple_write_guard_adds_units (c a r : Nat) :
    WriteLocked_scope ⟨⟨c + 1, a, r⟩⟩ = some (B_OK, ⟨⟨c + 100000, a + 1, r + 1⟩⟩)
    ∧ c + 100000 ≠ c + 1 := by
  refine ⟨?_, by omega⟩
  simp [WriteLocked_scope, ReadWriteLock.LockWrite, lock_semaphore_timeout,
    ReadWriteLock.UnlockWrite, unlock_semaphore_ex, MAX_READERS]

/-! ## The fast ReadWriteLock -/

/-- C3 (the code at the failing input, r = 2): threads 1 and 2 hold read locks
on a fresh fast lock, thread 3 calls `LockWrite()` and is parked on the
semaphore; as soon as thread 1 alone has called `Unlock()`, the writer is handed
the unit and `LockWrite()` returns `B_OK` while thread 2 still holds its read
lock. -/
theorem C3_fast_writer_returns_after_first_unlock (USE_BENAPHORE : Bool) :
    (∃ s, fastRun USE_BENAPHORE (fastInit USE_BENAPHORE) [.Lock 1, .Lock 2, .LockWrite 3] = some s
        ∧ s.readers = [2, 1] ∧ s.writers = [] ∧ s.parkedWriters = [3])
    ∧ (∃ s, fastRun USE_BENAPHORE (fastInit USE_BENAPHORE)
          [.Lock 1, .Lock 2, .LockWrite 3, .Unlock 1, .WriterWoken 3] = some s
        ∧ s.readers = [2] ∧ s.writers = [3] ∧ s.parkedWriters = []) := by
  cases USE_BENAPHORE <;> exact ⟨⟨_, rfl, rfl, rfl, rfl⟩, ⟨_, rfl, rfl, rfl, rfl⟩⟩

/-- A read `Lock()` on a fast lock whose counter is `-k` and whose semaphore
holds no unit parks the caller and leaves the counter at `-(k + 1)`. -/
theorem fast_Lock_parks (USE_BENAPHORE : Bool) (t : Int) (s : FastSystem) (k : Nat)
    (hc : s.lock.fCount = -(k : Int)) (hu : s.lock.fSemaphore.units = 0)
    (hk : k < 2 ^ 31) :
    ∃ s1, fastStep USE_BENAPHORE s (.Lock t) = some s1
      ∧ s1.lock.fCount = -((k + 1 : Nat) : Int)
      ∧ s1.lock.fSemaphore.units = 0
      ∧ s1.lock.fSemaphore.releases = s.lock.fSemaphore.releases
      ∧ s1.readers = s.readers ∧ s1.writers = s.writers
      ∧ s1.parkedReaders = t :: s.parkedReaders
      ∧ s1.parkedWriters = s.parkedWriters ∧ s1.queuedWriters = s.queuedWriters := by
  have hw : wrap32 (-(k : Int) + -1) = -((k + 1 : Nat) : Int) := by
    rw [wrap32_of_int32] <;> push_cast <;> omega
  have h0 : -(k : Int) ≤ 0 := by omega
  simp [fastStep, FastReadWriteLock.Lock, atomic_add, lock_semaphore, hc, hu, hw, h0]

/-- While the counter is not positive and the semaphore holds no unit, `k`
further readers calling `Lock()` are all parked. -/
theorem fast_readers_park (USE_BENAPHORE : Bool) (ts : List Int) (s : FastSystem) (k : Nat)
    (hc : s.lock.fCount = -(k : Int)) (hu : s.lock.fSemaphore.units = 0)
    (hk : k + ts.length < 2 ^ 31) :
    ∃ s1, fastRun USE_BENAPHORE s (ts.map .Lock) = some s1
      ∧ s1.lock.fCount = -((k + ts.length : Nat) : Int)
      ∧ s1.lock.fSemaphore.units = 0
      ∧ s1.lock.fSemaphore.releases = s.lock.fSemaphore.releases
      ∧ s1.readers = s.readers ∧ s1.writers = s.writers
      ∧ s1.parkedReaders = ts.reverse ++ s.parkedReaders
      ∧ s1.parkedWriters = s.parkedWriters ∧ s1.queuedWriters = s.queuedWriters := by
  induction ts generalizing s k with
  | nil => exact ⟨s, rfl, by simpa using hc, hu, rfl, rfl, rfl, by simp, rfl, rfl⟩
  | cons t ts ih =>
    have hlen : (t :: ts).length = ts.length + 1 := rfl
    obtain ⟨s0, g1, g2, g3, g4, g5, g6, g7, g8, g9⟩ :=
      fast_Lock_parks USE_BENAPHORE t s k hc hu (by omega)
    obtain ⟨s1, h1, h2, h3, h4, h5, h6, h7, h8, h9⟩ := ih s0 (k + 1) g2 g3 (by omega)
    refine ⟨s1, ?_, ?_, h3, h4.trans g4, h5.trans g5, h6.trans g6, ?_, h8.trans g8,
      h9.trans g9⟩
    · simp [fastRun, g1, h1]
    · rw [h2, hlen]; congr 1; omega
    · simp [h7, g7]

/-- C4: on a freshly initialised fast lock `LockWrite()` by `w` returns `B_OK`;
after it, the `Lock()` calls of any new readers `ts` (fewer than 2^31 of them)
all take the blocking branch: each finds the counter at `0, -1, -2, ...` and the
semaphore without a unit, so the readers are all parked, none holds the lock,
and no parked reader can be handed a unit as long as `UnlockWrite()` is not
called. -/
theorem C4_fast_readers_wait_for_writer (USE_BENAPHORE : Bool) (w : Int) (ts : List Int)
    (hn : ts.length < 2 ^ 31) :
    ∃ s, fastRun USE_BENAPHORE (fastInit USE_BENAPHORE) (.LockWrite w :: ts.map .Lock) = some s
      ∧ s.writers = [w] ∧ s.readers = [] ∧ s.parkedReaders = ts.reverse
      ∧ s.lock.fCount = -(ts.length : Int) ∧ s.lock.fSemaphore.units = 0
      ∧ ∀ t, fastStep USE_BENAPHORE s (.ReaderWoken t) = none := by
  obtain ⟨s0, e0, c0, u0, r0, w0, p0⟩ :
      ∃ s0, fastStep USE_BENAPHORE (fastInit USE_BENAPHORE) (.LockWrite w) = some s0
        ∧ s0.lock.fCount = -((0 : Nat) : Int) ∧ s0.lock.fSemaphore.units = 0
        ∧ s0.readers = [] ∧ s0.writers = [w] ∧ s0.parkedReaders = [] := by
    cases USE_BENAPHORE <;> exact ⟨_, rfl, rfl, rfl, rfl, rfl, rfl⟩
  obtain ⟨s, h1, h2, h3, -, h5, h6, h7, -, -⟩ :=
    fast_readers_park USE_BENAPHORE ts s0 0 c0 u0 (by omega)
  refine ⟨s, ?_, h6.trans w0, h5.trans r0, ?_, ?_, h3, ?_⟩
  · simp [fastRun, e0, h1]
  · simp [h7, p0]
  · simpa using h2
  · intro t
    simp [fastStep, FastReadWriteLock.Lock_resume, wake, h3]

/-- C4 at a concrete input: writer 1, then readers 5 and 6. -/
theorem C4_fast_readers_wait_for_writer_witness :
    ([5, 6] : List Int).length < 2 ^ 31 ∧ ∃ s, fastRun false (fastInit false) (.LockWrite 1 :: [5, 6].map .Lock) = some s
      ∧ s.writers = [1] ∧ s.readers = [] ∧ s.parkedReaders = [5, 6].reverse
      ∧ s.lock.fCount = -(([5, 6] : List Int).length : Int) ∧ s.lock.fSemaphore.units = 0
      ∧ ∀ t, fastStep false s (.ReaderWoken t) = none :=
  ⟨by decide, C4_fast_readers_wait_for_writer false 1 [5, 6] (by decide)⟩

/-- Parked readers handed one unit each, in the order of the list, all return
from `Lock()` and use up exactly as many units as there are readers. -/
theorem fast_readers_woken (USE_BENAPHORE : Bool) (ps : List Int) (s : FastSystem)
    (hp : s.parkedReaders = ps) (hu : s.lock.fSemaphore.units = ps.length) :
    ∃ s1, fastRun USE_BENAPHORE s (ps.map .ReaderWoken) = some s1
      ∧ s1.lock.fCount = s.lock.fCount
      ∧ s1.lock.fSemaphore.units = 0
      ∧ s1.lock.fSemaphore.releases = s.lock.fSemaphore.releases
      ∧ s1.readers = ps.reverse ++ s.readers ∧ s1.writers = s.writers
      ∧ s1.parkedReaders = [] := by
  induction ps generalizing s with
  | nil => exact ⟨s, rfl, rfl, hu, rfl, by simp, rfl, hp⟩
  | cons p ps ih =>
    have hpos : 0 < s.lock.fSemaphore.units := by rw [hu]; simp
    obtain ⟨s0, g1, g2, g3, g4, g5, g6, g7⟩ :
        ∃ s0, fastStep USE_BENAPHORE s (.ReaderWoken p) = some s0
          ∧ s0.lock.fCount = s.lock.fCount
          ∧ s0.lock.fSemaphore.units = ps.length
          ∧ s0.lock.fSemaphore.releases = s.lock.fSemaphore.releases
          ∧ s0.readers = p :: s.readers ∧ s0.writers = s.writers
          ∧ s0.parkedReaders = ps := by
      simp [fastStep, FastReadWriteLock.Lock_resume, wake, hp, hpos, hu]
    obtain ⟨s1, h1, h2, h3, h4, h5, h6, h7⟩ := ih s0 g7 g3
    refine ⟨s1, ?_, h2.trans g2, h3, h4.trans g4, ?_, h6.trans g6, h7⟩
    · simp [fastRun, g1, h1]
    · simp [h5, g5]

/-- The fast `UnlockWrite()` on a counter `-k` with `k < MAX_READERS`: the
counter becomes `MAX_READERS - k`, the semaphore receives `k` units, by one
release call if `k > 0` and by none if `k = 0`. -/
theorem fast_UnlockWrite_releases_queued (l : FastReadWriteLock) (k : Nat)
    (hc : l.fCount = -(k : Int)) (hk : (k : Int) < MAX_READERS) :
    l.UnlockWrite.fCount = MAX_READERS - k
      ∧ l.UnlockWrite.fSemaphore.units = l.fSemaphore.units + k
      ∧ l.UnlockWrite.fSemaphore.releases = l.fSemaphore.releases + (if k = 0 then 0 else 1)
      ∧ l.UnlockWrite.fSemaphore.acquires = l.fSemaphore.acquires
      ∧ l.UnlockWrite.fWriteLock = l.fWriteLock := by
  have hM : MAX_READERS = 100000 := rfl
  rw [hM] at hk
  have hw : wrap32 (-(k : Int) + 100000) = 100000 - k := by
    rw [wrap32_of_int32] <;> omega
  rcases Nat.eq_zero_or_pos k with h0 | hpos
  · subst h0
    simp [FastReadWriteLock.UnlockWrite, atomic_add, hc, hM] at hw ⊢
    exact hw
  · have hneg : -(k : Int) < 0 := by omega
    have hnot : ¬ (-(k : Int) ≤ -100000) := by omega
    have hk0 : k ≠ 0 := by omega
    simp [FastReadWriteLock.UnlockWrite, atomic_add, unlock_semaphore_ex, hc, hM, hw, hneg,
      hnot, hk0]

/-- After `LockWrite()` by `w` on a fresh fast lock and `Lock()` calls by the
readers `ts`, `w` is the only writer, the readers are parked, the counter is
`-k` for `k` readers and the semaphore holds no unit. -/
theorem fast_writer_hold_state (USE_BENAPHORE : Bool) (w : Int) (ts : List Int)
    (hn : ts.length < 2 ^ 31) :
    ∃ s, fastRun USE_BENAPHORE (fastInit USE_BENAPHORE) (.LockWrite w :: ts.map .Lock) = some s
      ∧ s.writers = [w] ∧ s.parkedWriters = [] ∧ s.queuedWriters = []
      ∧ s.parkedReaders = ts.reverse ∧ s.readers = []
      ∧ s.lock.fCount = -(ts.length : Int) ∧ s.lock.fSemaphore.units = 0 := by
  obtain ⟨s0, e0, c0, u0, r0, w0, p0, q0, x0⟩ :
      ∃ s0, fastStep USE_BENAPHORE (fastInit USE_BENAPHORE) (.LockWrite w) = some s0
        ∧ s0.lock.fCount = -((0 : Nat) : Int) ∧ s0.lock.fSemaphore.units = 0
        ∧ s0.readers = [] ∧ s0.writers = [w] ∧ s0.parkedReaders = []
        ∧ s0.parkedWriters = [] ∧ s0.queuedWriters = [] := by
    cases USE_BENAPHORE <;> exact ⟨_, rfl, rfl, rfl, rfl, rfl, rfl, rfl, rfl⟩
  obtain ⟨s, h1, h2, h3, -, h5, h6, h7, h8, h9⟩ :=
    fast_readers_park USE_BENAPHORE ts s0 0 c0 u0 (by omega)
  refine ⟨s, ?_, h6.trans w0, h8.trans q0, h9.trans x0, ?_, h5.trans r0, ?_, h3⟩
  · simp [fastRun, e0, h1]
  · simp [h7, p0]
  · simpa using h2

/-- When the writer `w` got the lock with no reader inside: in a fast lock held
by the single writer `w`, with `k < MAX_READERS` readers parked in `Lock()`,
the counter at `-k` and no unit in the semaphore,
`UnlockWrite()` leaves the counter at `MAX_READERS - k` and puts exactly `k`
units into the semaphore, by one release call when `k > 0` and by none when
`k = 0`; the `k` parked readers are then all handed a unit and return from
`Lock()`, after which no unit is left. -/
theorem fast_UnlockWrite_wakes_queued_readers (USE_BENAPHORE : Bool) (s : FastSystem)
    (w : Int) (k : Nat) (hw : s.writers = [w]) (hp : s.parkedReaders.length = k)
    (hc : s.lock.fCount = -(k : Int)) (hu : s.lock.fSemaphore.units = 0)
    (hk : (k : Int) < MAX_READERS) :
    ∃ s1, fastStep USE_BENAPHORE s (.UnlockWrite w) = some s1
      ∧ s1.writers = []
      ∧ s1.lock.fCount = MAX_READERS - k
      ∧ s1.lock.fSemaphore.units = k
      ∧ s1.lock.fSemaphore.releases = s.lock.fSemaphore.releases + (if k = 0 then 0 else 1)
      ∧ ∃ s2, fastRun USE_BENAPHORE s1 (s.parkedReaders.map .ReaderWoken) = some s2
        ∧ s2.readers = s.parkedReaders.reverse ++ s.readers
        ∧ s2.parkedReaders = []
        ∧ s2.lock.fSemaphore.units = 0
        ∧ s2.lock.fCount = MAX_READERS - k := by
  obtain ⟨a1, a2, a3, -, -⟩ := fast_UnlockWrite_releases_queued s.lock k hc hk
  obtain ⟨s1, e1, b1, b2, b3, b4, b5, b6⟩ :
      ∃ s1, fastStep USE_BENAPHORE s (.UnlockWrite w) = some s1
        ∧ s1.lock = s.lock.UnlockWrite ∧ s1.writers = [] ∧ s1.readers = s.readers
        ∧ s1.parkedReaders = s.parkedReaders ∧ True ∧ True := by
    simp [fastStep, hw]
  rw [hu, Nat.zero_add] at a2
  obtain ⟨s2, h1, h2, h3, -, h5, -, h7⟩ :=
    fast_readers_woken USE_BENAPHORE s.parkedReaders s1 b4 (by rw [b1, a2, hp])
  refine ⟨s1, e1, b2, by rw [b1, a1], by rw [b1, a2], by rw [b1, a3], s2, h1, ?_, h7, h3, ?_⟩
  · rw [h5, b3]
  · rw [h2, b1, a1]

/-- The same at a concrete input: the state after `LockWrite()` by thread 1 and
`Lock()` by threads 5 and 6 on a fresh fast lock. -/
theorem fast_UnlockWrite_wakes_queued_readers_at_fresh :
    fastRun false (fastInit false) [.LockWrite 1, .Lock 5, .Lock 6]
      = some ⟨⟨⟨0, 2, 0⟩, -2, ⟨⟨1, 1, 1⟩, 0⟩⟩, [], [1], [6, 5], [], []⟩
    ∧ ∃ s1, fastStep false ⟨⟨⟨0, 2, 0⟩, -2, ⟨⟨1, 1, 1⟩, 0⟩⟩, [], [1], [6, 5], [], []⟩
          (.UnlockWrite 1) = some s1
      ∧ s1.writers = []
      ∧ s1.lock.fCount = MAX_READERS - (2 : Nat)
      ∧ s1.lock.fSemaphore.units = 2
      ∧ s1.lock.fSemaphore.releases = 0 + (if 2 = 0 then 0 else 1)
      ∧ ∃ s2, fastRun false s1 (([6, 5] : List Int).map .ReaderWoken) = some s2
        ∧ s2.readers = ([6, 5] : List Int).reverse ++ []
        ∧ s2.parkedReaders = []
        ∧ s2.lock.fSemaphore.units = 0
        ∧ s2.lock.fCount = MAX_READERS - (2 : Nat) :=
  ⟨rfl, fast_UnlockWrite_wakes_queued_readers false
    ⟨⟨⟨0, 2, 0⟩, -2, ⟨⟨1, 1, 1⟩, 0⟩⟩, [], [1], [6, 5], [], []⟩ 1 2 rfl rfl rfl rfl (by decide)⟩

/-! ## RecursiveLock -/

/-- Re-entrant `Lock()` calls by the owner: each returns `B_OK` and adds one to
the depth, in `int32` arithmetic; nothing else changes. -/
theorem rec_relock (USE_BENAPHORE : Bool) (A : Int) (k : KSem) (c d : Int) (n : Nat) :
    recRun USE_BENAPHORE ⟨k, c, A, wrap32 d⟩ (List.replicate n (.Lock A))
      = some (List.replicate n B_OK, ⟨k, c, A, wrap32 (d + n)⟩) := by
  induction n generalizing d with
  | zero => simp [recRun]
  | succ n ih =>
    have h := ih (d + 1)
    rw [List.replicate_succ, List.replicate_succ]
    simp only [recRun, recStep, RecursiveLock.Lock, RecursiveLock.LockWithTimeout, if_true,
      wrap32_add_left, h, Option.map_some']
    congr 3
    push_cast; ring_nf

/-- The first `Lock()` on a free lock by a thread other than `-1`, without
`USE_BENAPHORE`: it takes the unit of the semaphore by one kernel acquire and
returns `B_OK` with the caller as owner at depth 1. -/
theorem rec_first_lock (A : Int) (hA : A ≠ -1) (u a r : Nat) (c d : Int) :
    recStep false ⟨⟨u + 1, a, r⟩, c, -1, d⟩ (.Lock A)
      = some (B_OK, ⟨⟨u, a + 1, r⟩, c, A, 1⟩) := by
  simp [recStep, RecursiveLock.Lock, RecursiveLock.LockWithTimeout, RecursiveLock.acquire,
    lock_semaphore_timeout, RecursiveLock.own, hA]

/-- `n + 1` consecutive `Lock()` calls by `A` on a free lock. -/
theorem rec_locks (A : Int) (hA : A ≠ -1) (u a r : Nat) (c d : Int) (n : Nat) :
    recRun false ⟨⟨u + 1, a, r⟩, c, -1, d⟩ (List.replicate (n + 1) (.Lock A))
      = some (List.replicate (n + 1) B_OK, ⟨⟨u, a + 1, r⟩, c, A, wrap32 (1 + n)⟩) := by
  have h := rec_relock false A ⟨u, a + 1, r⟩ c 1 n
  have h1 : wrap32 1 = 1 := by decide
  rw [h1] at h
  rw [List.replicate_succ, List.replicate_succ]
  simp only [recRun, rec_first_lock A hA, h, Option.map_some']

/-- `Unlock()` calls by the owner above depth 1: each returns `B_OK`, takes one
off the depth and touches neither the owner nor the semaphore. -/
theorem rec_unlocks_inner (USE_BENAPHORE : Bool) (A : Int) (k : KSem) (c : Int)
    (j m : Nat) (hj : 1 ≤ j) (hm : j + m < 2 ^ 31) :
    recRun USE_BENAPHORE ⟨k, c, A, ((j + m : Nat) : Int)⟩ (List.replicate m (.Unlock A))
      = some (List.replicate m B_OK, ⟨k, c, A, (j : Int)⟩) := by
  induction m with
  | zero => simp [recRun]
  | succ m ih =>
    have h := ih (by omega)
    have hw : wrap32 (((j + (m + 1) : Nat) : Int) - 1) = ((j + m : Nat) : Int) := by
      rw [wrap32_of_int32] <;> push_cast <;> omega
    have hne : ((j + m : Nat) : Int) ≠ 0 := by omega
    rw [List.replicate_succ, List.replicate_succ]
    simp only [recRun, recStep, RecursiveLock.Unlock, ne_eq, not_true_eq_false, if_false, hw,
      hne, h, Option.map_some']

/-- The `Unlock()` by the owner at depth 1, without `USE_BENAPHORE`: the depth
becomes 0, the owner none, and one kernel release gives the unit back. -/
theorem rec_last_unlock (A : Int) (u a r : Nat) (c : Int) :
    recStep false ⟨⟨u, a, r⟩, c, A, 1⟩ (.Unlock A)
      = some (B_OK, ⟨⟨u + 1, a, r + 1⟩, c, -1, 0⟩) := by
  have hw : wrap32 0 = 0 := by decide
  simp [recStep, RecursiveLock.Unlock, RecursiveLock.release, unlock_semaphore, hw]

/-- A run is a first call followed by the run of the remaining calls. -/
theorem recRun_cons (USE_BENAPHORE : Bool) {s s1 s2 : RecursiveLock} {c : RecCall}
    {cs : List RecCall} {st : Int} {sts : List Int}
    (h1 : recStep USE_BENAPHORE s c = some (st, s1))
    (h2 : recRun USE_BENAPHORE s1 cs = some (sts, s2)) :
    recRun USE_BENAPHORE s (c :: cs) = some (st :: sts, s2) := by
  simp [recRun, h1, h2]

/-- `n + 1` consecutive `Unlock()` calls by the owner `A` at depth `n + 1`. -/
theorem rec_unlocks (A : Int) (u a r : Nat) (c : Int) (n : Nat) (hn : n + 1 < 2 ^ 31) :
    recRun false ⟨⟨u, a, r⟩, c, A, ((n + 1 : Nat) : Int)⟩ (List.replicate (n + 1) (.Unlock A))
      = some (List.replicate (n + 1) B_OK, ⟨⟨u + 1, a, r + 1⟩, c, -1, 0⟩) := by
  induction n with
  | zero => exact recRun_cons false (rec_last_unlock A u a r c) rfl
  | succ n ih =>
    have hw : wrap32 (((n + 1 + 1 : Nat) : Int) - 1) = ((n + 1 : Nat) : Int) := by
      rw [wrap32_of_int32] <;> push_cast <;> omega
    have hne : ((n + 1 : Nat) : Int) ≠ 0 := by omega
    refine recRun_cons false ?_ (ih (by omega))
    simp only [recStep, RecursiveLock.Unlock, ne_eq, not_true_eq_false, if_false, hw, hne]

/-- C6 (counterexample to the claim as stated, N = 2^31): 2^31 consecutive
`Lock()` calls by thread 7 on a newly constructed lock all return `B_OK` and
leave thread 7 as owner, but the `int32` depth is `-2^31`, not `N = 2^31`. -/
theorem C6_depth_is_not_N_at_2_pow_31 :
    ∃ r, recRun false (RecursiveLock.new false 0) (List.replicate (2 ^ 31) (.Lock 7)) = some r
      ∧ r.2.fOwner = 7 ∧ r.2.fOwnerCount = -2 ^ 31 ∧ r.2.fOwnerCount ≠ ((2 ^ 31 : Nat) : Int) := by
  have h := rec_locks 7 (by decide) 0 0 0 0 (wrap32 0) 2147483647
  have e : (2147483647 + 1 : Nat) = 2 ^ 31 := by norm_num
  rw [e] at h
  have hw : wrap32 (1 + ((2147483647 : Nat) : Int)) = -2 ^ 31 := by decide
  refine ⟨_, h, rfl, hw, ?_⟩
  show wrap32 (1 + ((2147483647 : Nat) : Int)) ≠ _
  rw [hw]; decide

/-- C6 (as amended, `1 ≤ N < 2^31`): on a free lock (no owner, the semaphore
holding a unit), `N` consecutive `Lock()` calls by a thread `A ≠ -1` all return
`B_OK`, call the kernel acquire once in total and end with owner `A`, depth `N`;
after them, fewer than `N` `Unlock()` calls by `A` return `B_OK` and leave the
owner and the semaphore alone, `N` `Unlock()` calls all return `B_OK`, call the
kernel release once in total and end with no owner, depth 0 and the unit back in
the semaphore; a following `Lock()` by any `B ≠ A` returns `B_OK` with owner `B`
and depth 1. -/
theorem C6_recursive_lock_reentrancy (A : Int) (hA : A ≠ -1) (u a r : Nat) (c d : Int)
    (N : Nat) (h1 : 1 ≤ N) (h2 : N < 2 ^ 31) :
    recRun false ⟨⟨u + 1, a, r⟩, c, -1, d⟩ (List.replicate N (.Lock A))
        = some (List.replicate N B_OK, ⟨⟨u, a + 1, r⟩, c, A, (N : Int)⟩)
    ∧ (∀ m, m < N →
        recRun false ⟨⟨u, a + 1, r⟩, c, A, (N : Int)⟩ (List.replicate m (.Unlock A))
          = some (List.replicate m B_OK, ⟨⟨u, a + 1, r⟩, c, A, ((N - m : Nat) : Int)⟩))
    ∧ recRun false ⟨⟨u, a + 1, r⟩, c, A, (N : Int)⟩ (List.replicate N (.Unlock A))
        = some (List.replicate N B_OK, ⟨⟨u + 1, a + 1, r + 1⟩, c, -1, 0⟩)
    ∧ ∀ B, B ≠ A →
        ∃ s, RecursiveLock.Lock false B ⟨⟨u + 1, a + 1, r + 1⟩, c, -1, 0⟩ = .returned B_OK s
          ∧ s.fOwner = B ∧ s.fOwnerCount = 1 := by
  obtain ⟨n, rfl⟩ : ∃ n, N = n + 1 := ⟨N - 1, by omega⟩
  refine ⟨?_, ?_, rec_unlocks A u (a + 1) r c n h2, ?_⟩
  · have h := rec_locks A hA u a r c d n
    have hw : wrap32 (1 + (n : Int)) = ((n + 1 : Nat) : Int) := by
      rw [wrap32_of_int32] <;> push_cast <;> omega
    rw [hw] at h
    exact h
  · intro m hm
    have h := rec_unlocks_inner false A ⟨u, a + 1, r⟩ c (n + 1 - m) m (by omega) (by omega)
    have e : n + 1 - m + m = n + 1 := by omega
    rw [e] at h
    exact h
  · intro B hB
    by_cases hB1 : B = -1
    · subst hB1
      refine ⟨⟨⟨u + 1, a + 1, r + 1⟩, c, -1, 1⟩, ?_, rfl, rfl⟩
      have hw : wrap32 1 = 1 := by decide
      simp [RecursiveLock.Lock, RecursiveLock.LockWithTimeout, hw]
    · refine ⟨⟨⟨u, a + 1 + 1, r + 1⟩, c, B, 1⟩, ?_, rfl, rfl⟩
      simp [RecursiveLock.Lock, RecursiveLock.LockWithTimeout, RecursiveLock.acquire,
        lock_semaphore_timeout, RecursiveLock.own, hB1]

/-- C6 at a concrete input: thread 7 locks a newly constructed lock three times
and unlocks it three times; thread 8 locks it then. -/
theorem C6_recursive_lock_reentrancy_witness :
    ((7 : Int) ≠ -1 ∧ 1 ≤ 3 ∧ 3 < 2 ^ 31)
    ∧ (recRun false ⟨⟨0 + 1, 0, 0⟩, 0, -1, 0⟩ (List.replicate 3 (.Lock 7))
        = some (List.replicate 3 B_OK, ⟨⟨0, 0 + 1, 0⟩, 0, 7, ((3 : Nat) : Int)⟩)
    ∧ (∀ m, m < 3 →
        recRun false ⟨⟨0, 0 + 1, 0⟩, 0, 7, ((3 : Nat) : Int)⟩ (List.replicate m (.Unlock 7))
          = some (List.replicate m B_OK, ⟨⟨0, 0 + 1, 0⟩, 0, 7, ((3 - m : Nat) : Int)⟩))
    ∧ recRun false ⟨⟨0, 0 + 1, 0⟩, 0, 7, ((3 : Nat) : Int)⟩ (List.replicate 3 (.Unlock 7))
        = some (List.replicate 3 B_OK, ⟨⟨0 + 1, 0 + 1, 0 + 1⟩, 0, -1, 0⟩)
    ∧ ∀ B, B ≠ 7 →
        ∃ s, RecursiveLock.Lock false B ⟨⟨0 + 1, 0 + 1, 0 + 1⟩, 0, -1, 0⟩ = .returned B_OK s
          ∧ s.fOwner = B ∧ s.fOwnerCount = 1) :=
  ⟨⟨by decide, by decide, by decide⟩,
    C6_recursive_lock_reentrancy 7 (by decide) 0 0 0 0 0 3 (by decide) (by decide)⟩

/-- C7: `Unlock()` called by a thread `t` other than the recorded owner (also
when the lock has no owner) stops in the `panic` that names `t` and the owner,
with the owner, the depth, the counter and the semaphore exactly as they were
before the call. -/
theorem C7_unlock_by_non_owner_panics (USE_BENAPHORE : Bool) (s : RecursiveLock) (t : Int)
    (h : t ≠ s.fOwner) :
    s.Unlock USE_BENAPHORE t = .panic t s.fOwner s := by
  simp [RecursiveLock.Unlock, h]

/-- C7 at concrete inputs: thread 5 unlocks a lock nobody owns, and a lock that
thread 7 owns at depth 2. -/
theorem C7_unlock_by_non_owner_panics_witness :
    ((5 : Int) ≠ (RecursiveLock.new false 0).fOwner
      ∧ (RecursiveLock.new false 0).Unlock false 5
          = .panic 5 (-1) (RecursiveLock.new false 0))
    ∧ ((5 : Int) ≠ (⟨⟨0, 1, 0⟩, 0, 7, 2⟩ : RecursiveLock).fOwner
      ∧ RecursiveLock.Unlock false 5 ⟨⟨0, 1, 0⟩, 0, 7, 2⟩
          = .panic 5 7 ⟨⟨0, 1, 0⟩, 0, 7, 2⟩) :=
  ⟨⟨by decide, C7_unlock_by_non_owner_panics false _ 5 (by decide)⟩,
    ⟨by decide, C7_unlock_by_non_owner_panics false _ 5 (by decide)⟩⟩

/-- C9: without `USE_BENAPHORE`, `LockWithTimeout(timeout)` by a thread `t` that
is not the owner does what `lock_semaphore_timeout(fSemaphore, timeout)` does:
it returns the status of that acquire, with owner `t` and depth 1 if the status
is `B_OK` and with owner and depth untouched otherwise, or stays parked where
the acquire parks.  Called by the owner it returns `B_OK` for every timeout,
with the `int32` depth incremented (by exactly one below `2^31 - 1`) and the
semaphore, the counter and the owner untouched, with or without `USE_BENAPHORE`. -/
theorem C9_LockWithTimeout_status (s : RecursiveLock) (t timeout : Int) (h : t ≠ s.fOwner) :
    (s.LockWithTimeout false t timeout =
      match lock_semaphore_timeout s.fSemaphore timeout with
      | .returned st k =>
          if st = B_OK then .returned st { s with fSemaphore := k, fOwner := t, fOwnerCount := 1 }
          else .returned st { s with fSemaphore := k }
      | .blocked k => .blocked { s with fSemaphore := k })
    ∧ (∀ (b : Bool) (k : KSem) (c d any : Int),
        RecursiveLock.LockWithTimeout b t any ⟨k, c, t, d⟩
            = .returned B_OK ⟨k, c, t, wrap32 (d + 1)⟩
          ∧ (-2 ^ 31 ≤ d → d < 2 ^ 31 - 1 → wrap32 (d + 1) = d + 1)) := by
  constructor
  · simp only [RecursiveLock.LockWithTimeout, h, if_false, RecursiveLock.acquire,
      Bool.false_eq_true]
    cases lock_semaphore_timeout s.fSemaphore timeout with
    | returned st k => simp only [RecursiveLock.own]
    | blocked k => rfl
  · intro b k c d any
    refine ⟨by simp [RecursiveLock.LockWithTimeout], fun h1 h2 => ?_⟩
    rw [wrap32_of_int32] <;> omega

/-- C9 at concrete inputs: thread 5 calls `LockWithTimeout(1000)` on a lock that
thread 7 owns (the acquire times out), and on a free lock (the acquire
succeeds). -/
theorem C9_LockWithTimeout_status_witness :
    ((5 : Int) ≠ (⟨⟨0, 1, 0⟩, 0, 7, 2⟩ : RecursiveLock).fOwner
      ∧ RecursiveLock.LockWithTimeout false 5 1000 ⟨⟨0, 1, 0⟩, 0, 7, 2⟩
          = .returned B_TIMED_OUT ⟨⟨0, 2, 0⟩, 0, 7, 2⟩)
    ∧ ((5 : Int) ≠ (⟨⟨1, 0, 0⟩, 0, -1, 0⟩ : RecursiveLock).fOwner
      ∧ RecursiveLock.LockWithTimeout false 5 1000 ⟨⟨1, 0, 0⟩, 0, -1, 0⟩
          = .returned B_OK ⟨⟨0, 1, 0⟩, 0, 5, 1⟩) :=
  ⟨⟨by decide, (C9_LockWithTimeout_status ⟨⟨0, 1, 0⟩, 0, 7, 2⟩ 5 1000 (by decide)).1⟩,
    ⟨by decide, (C9_LockWithTimeout_status ⟨⟨1, 0, 0⟩, 0, -1, 0⟩ 5 1000 (by decide)).1⟩⟩

/-! ## Semaphore with `USE_BENAPHORE` -/

/-- With at most one `Lock()` outstanding, a benaphore whose counter is 1 when
free and 0 when held serves every call on the counter alone. -/
theorem benaphore_uncontended (held : Bool) (s : Semaphore) (cs : List SemCall)
    (hc : s.fCount = if held then 0 else 1) (hv : oneOutstanding held cs = true) :
    ∃ r, semRun true s cs = some r
      ∧ r.1.map (fun x => x.1) = cs
      ∧ (∀ x ∈ r.1, x.2.1 = B_OK ∧ x.2.2 = (if x.1 = .Lock then 0 else 1))
      ∧ r.2.fSemaphore = s.fSemaphore := by
  induction cs generalizing held s with
  | nil => exact ⟨_, rfl, rfl, by simp, rfl⟩
  | cons c cs ih =>
    have d1 : wrap32 0 = 0 := by decide
    have d2 : wrap32 1 = 1 := by decide
    cases c with
    | Lock =>
      simp only [oneOutstanding, Bool.and_eq_true, Bool.not_eq_true'] at hv
      obtain ⟨hh, hv⟩ := hv
      subst hh
      simp only [Bool.false_eq_true, if_false] at hc
      obtain ⟨r, h1, h2, h3, h4⟩ := ih true { s with fCount := 0 } rfl hv
      refine ⟨((.Lock, B_OK, 0) :: r.1, r.2), ?_, by simp [h2], ?_, h4⟩
      · simp [semRun, Semaphore.Lock, atomic_dec, atomic_read, hc, d1, h1]
      · intro x hx
        rcases List.mem_cons.1 hx with rfl | hx
        · simp
        · exact h3 x hx
    | Unlock =>
      simp only [oneOutstanding, Bool.and_eq_true] at hv
      obtain ⟨hh, hv⟩ := hv
      subst hh
      simp only [if_true] at hc
      obtain ⟨r, h1, h2, h3, h4⟩ := ih false { s with fCount := 1 } rfl hv
      refine ⟨((.Unlock, B_OK, 1) :: r.1, r.2), ?_, by simp [h2], ?_, h4⟩
      · simp [semRun, Semaphore.Unlock, atomic_inc, atomic_read, hc, d2, h1]
      · intro x hx
        rcases List.mem_cons.1 hx with rfl | hx
        · simp
        · exact h3 x hx

/-- C10: on a freshly constructed `USE_BENAPHORE` semaphore (counter 1), every
sequence of `Lock()` / `Unlock()` calls with at most one `Lock()` outstanding and
no `Unlock()` before its `Lock()` runs to its end; every call returns `B_OK`, the
counter is 0 after each `Lock()` and 1 after each `Unlock()`, and the kernel's
acquire and release have been called zero times. -/
theorem C10_benaphore_fast_path (cs : List SemCall) (hv : oneOutstanding false cs = true) :
    ∃ r, semRun true (Semaphore.new true) cs = some r
      ∧ r.1.map (fun x => x.1) = cs
      ∧ (∀ x ∈ r.1, x.2.1 = B_OK ∧ x.2.2 = (if x.1 = .Lock then 0 else 1))
      ∧ r.2.fSemaphore.acquires = 0 ∧ r.2.fSemaphore.releases = 0 := by
  obtain ⟨r, h1, h2, h3, h4⟩ := benaphore_uncontended false (Semaphore.new true) cs rfl hv
  exact ⟨r, h1, h2, h3, by rw [h4]; rfl, by rw [h4]; rfl⟩

/-- C10 at a concrete input: lock, unlock, lock. -/
theorem C10_benaphore_fast_path_witness :
    oneOutstanding false [.Lock, .Unlock, .Lock] = true
    ∧ ∃ r, semRun true (Semaphore.new true) [.Lock, .Unlock, .Lock] = some r
      ∧ r.1.map (fun x => x.1) = [.Lock, .Unlock, .Lock]
      ∧ (∀ x ∈ r.1, x.2.1 = B_OK ∧ x.2.2 = (if x.1 = .Lock then 0 else 1))
      ∧ r.2.fSemaphore.acquires = 0 ∧ r.2.fSemaphore.releases = 0 :=
  ⟨by decide, C10_benaphore_fast_path [.Lock, .Unlock, .Lock] (by decide)⟩

/-! ## The invariant of RecursiveLock -/

/-- Re-entrant `Lock()` events by the owner add to the depth in `int32`
arithmetic. -/
theorem recTrace_relock (USE_BENAPHORE : Bool) (A : Int) (k : KSem) (c d : Int) (n : Nat) :
    recTrace USE_BENAPHORE ⟨k, c, A, wrap32 d⟩ (List.replicate n (.Lock A))
      = some ⟨k, c, A, wrap32 (d + n)⟩ := by
  induction n generalizing d with
  | zero => simp [recTrace]
  | succ n ih =>
    have h := ih (d + 1)
    have e : d + 1 + (n : Int) = d + ((n + 1 : Nat) : Int) := by push_cast; ring
    rw [e] at h
    have hs : recApply USE_BENAPHORE ⟨k, c, A, wrap32 d⟩ (.Lock A)
        = some ⟨k, c, A, wrap32 (d + 1)⟩ := by
      simp [recApply, RecursiveLock.Lock, RecursiveLock.LockWithTimeout, wrap32_add_left]
    rw [List.replicate_succ]
    show (recApply USE_BENAPHORE _ (.Lock A)).bind _ = _
    rw [hs]
    exact h

/-- `n + 1` `Lock()` events by thread `A ≠ -1` on a lock constructed without
`USE_BENAPHORE`. -/
theorem recTrace_locks (A : Int) (hA : A ≠ -1) (garbage : Int) (n : Nat) :
    recTrace false (RecursiveLock.new false garbage) (List.replicate (n + 1) (.Lock A))
      = some ⟨⟨0, 1, 0⟩, 0, A, wrap32 (1 + n)⟩ := by
  have h1 : recApply false (RecursiveLock.new false garbage) (.Lock A)
      = some ⟨⟨0, 1, 0⟩, 0, A, wrap32 1⟩ := by
    have hw : wrap32 1 = 1 := by decide
    simp [recApply, RecursiveLock.new, RecursiveLock.Lock, RecursiveLock.LockWithTimeout,
      RecursiveLock.acquire, lock_semaphore_timeout, RecursiveLock.own, create_semaphore, hA, hw]
  have h2 := recTrace_relock false A ⟨0, 1, 0⟩ 0 1 n
  rw [List.replicate_succ]
  show (recApply false _ (.Lock A)).bind _ = _
  rw [h1]
  exact h2

/-- C8 (counterexamples to the claim as stated): from a newly constructed lock,
2^31 `Lock()` calls by thread 7 lead to a state with owner 7 and depth `-2^31`,
where `depth > 0 ⇔ owner ≠ none` fails; and the constructor, which does not
initialise the depth, yields a lock with no owner and depth 1 when the memory
held 1. -/
theorem C8_invariant_broken :
    (∃ s, recTrace false (RecursiveLock.new false 0) (List.replicate (2 ^ 31) (.Lock 7)) = some s
        ∧ (∀ e ∈ List.replicate (2 ^ 31) (RecEvent.Lock 7), e.thread ≠ -1)
        ∧ s.fOwner = 7 ∧ s.fOwnerCount = -2 ^ 31 ∧ ¬ s.depthIffOwned)
    ∧ ((RecursiveLock.new false 1).fOwner = -1 ∧ (RecursiveLock.new false 1).fOwnerCount = 1
        ∧ ¬ (RecursiveLock.new false 1).depthIffOwned) := by
  constructor
  · have h := recTrace_locks 7 (by decide) 0 2147483647
    have e : (2147483647 + 1 : Nat) = 2 ^ 31 := by norm_num
    have hw : wrap32 (1 + ((2147483647 : Nat) : Int)) = -2 ^ 31 := by decide
    rw [e, hw] at h
    refine ⟨⟨⟨0, 1, 0⟩, 0, 7, -2 ^ 31⟩, h, ?_, rfl, rfl, ?_⟩
    · intro ev hev
      have := List.eq_of_mem_replicate hev
      subst this
      decide
    · unfold RecursiveLock.depthIffOwned
      decide
  · refine ⟨rfl, by decide, ?_⟩
    unfold RecursiveLock.depthIffOwned
    decide

/-- The owner and the depth after `LockWithTimeout` called by a thread that is
not the owner, whether the call returned or parked its caller: either the
caller as owner at depth 1, or both fields as before. -/
theorem LockWithTimeout_other (USE_BENAPHORE : Bool) (t timeout : Int)
    (s s1 : RecursiveLock) (ht : t ≠ s.fOwner)
    (h : (∃ st, s.LockWithTimeout USE_BENAPHORE t timeout = .returned st s1)
      ∨ s.LockWithTimeout USE_BENAPHORE t timeout = .blocked s1) :
    (s1.fOwner = t ∧ s1.fOwnerCount = 1)
      ∨ (s1.fOwner = s.fOwner ∧ s1.fOwnerCount = s.fOwnerCount) := by
  have hne : B_TIMED_OUT ≠ B_OK := by decide
  rcases h with ⟨st, h⟩ | h <;> cases USE_BENAPHORE <;>
    simp only [RecursiveLock.LockWithTimeout, RecursiveLock.acquire, lock_semaphore_timeout,
      ht, if_false, if_true, Bool.false_eq_true] at h <;>
    split_ifs at h <;>
    simp only [RecursiveLock.own, if_true, if_false, hne, Outcome.returned.injEq,
      Outcome.blocked.injEq, reduceCtorEq, false_and, and_false] at h
  all_goals
    obtain ⟨-, rfl⟩ := h
    first | exact Or.inl ⟨rfl, rfl⟩ | exact Or.inr ⟨rfl, rfl⟩

/-- The owner and the depth after `LockWithTimeout` called by the owner. -/
theorem LockWithTimeout_owner (USE_BENAPHORE : Bool) (t timeout : Int)
    (s s1 : RecursiveLock) (ht : t = s.fOwner)
    (h : (∃ st, s.LockWithTimeout USE_BENAPHORE t timeout = .returned st s1)
      ∨ s.LockWithTimeout USE_BENAPHORE t timeout = .blocked s1) :
    s1.fOwner = s.fOwner ∧ s1.fOwnerCount = wrap32 (s.fOwnerCount + 1) := by
  rcases h with ⟨st, h⟩ | h
  · simp only [RecursiveLock.LockWithTimeout, ht, if_true, Outcome.returned.injEq] at h
    obtain ⟨-, rfl⟩ := h
    exact ⟨rfl, rfl⟩
  · simp [RecursiveLock.LockWithTimeout, ht] at h

/-- A lock call by a thread other than `-1` that does not overflow the depth
keeps `depth > 0 ⇔ owner ≠ none` and the depth below `2^31`. -/
theorem lock_keeps_invariant (USE_BENAPHORE : Bool) (t timeout : Int) (s s1 : RecursiveLock)
    (hI : s.depthIffOwned) (hR : s.fOwnerCount < 2 ^ 31) (ht : t ≠ -1)
    (ho : ¬ (t = s.fOwner ∧ s.fOwnerCount = 2 ^ 31 - 1))
    (h : (∃ st, s.LockWithTimeout USE_BENAPHORE t timeout = .returned st s1)
      ∨ s.LockWithTimeout USE_BENAPHORE t timeout = .blocked s1) :
    s1.depthIffOwned ∧ s1.fOwnerCount < 2 ^ 31 := by
  unfold RecursiveLock.depthIffOwned at hI ⊢
  by_cases hto : t = s.fOwner
  · obtain ⟨e1, e2⟩ := LockWithTimeout_owner USE_BENAPHORE t timeout s s1 hto h
    have hpos : 0 < s.fOwnerCount := hI.2 (hto ▸ ht)
    have hlt : s.fOwnerCount < 2 ^ 31 - 1 := by
      have : s.fOwnerCount ≠ 2 ^ 31 - 1 := fun hh => ho ⟨hto, hh⟩
      omega
    have hw : wrap32 (s.fOwnerCount + 1) = s.fOwnerCount + 1 := by
      rw [wrap32_of_int32] <;> omega
    rw [e1, e2, hw]
    exact ⟨⟨fun _ => hto ▸ ht, fun _ => by omega⟩, by omega⟩
  · rcases LockWithTimeout_other USE_BENAPHORE t timeout s s1 hto h with ⟨e1, e2⟩ | ⟨e1, e2⟩
    · rw [e1, e2]
      exact ⟨⟨fun _ => ht, fun _ => by decide⟩, by decide⟩
    · rw [e1, e2]
      exact ⟨hI, hR⟩

/-- An `Unlock()` call by a thread other than `-1`, returning or stopping in
`panic`, keeps `depth > 0 ⇔ owner ≠ none` and the depth below `2^31`. -/
theorem unlock_keeps_invariant (USE_BENAPHORE : Bool) (t : Int) (s s1 : RecursiveLock)
    (hI : s.depthIffOwned) (hR : s.fOwnerCount < 2 ^ 31) (ht : t ≠ -1)
    (h : (∃ st, s.Unlock USE_BENAPHORE t = .returned st s1)
      ∨ (∃ a b, s.Unlock USE_BENAPHORE t = .panic a b s1)) :
    s1.depthIffOwned ∧ s1.fOwnerCount < 2 ^ 31 := by
  unfold RecursiveLock.depthIffOwned at hI ⊢
  by_cases hto : t = s.fOwner
  · have hpos : 0 < s.fOwnerCount := hI.2 (hto ▸ ht)
    have hw : wrap32 (s.fOwnerCount - 1) = s.fOwnerCount - 1 := by
      rw [wrap32_of_int32] <;> omega
    have hown : s.fOwner ≠ -1 := hto ▸ ht
    rcases h with ⟨st, h⟩ | ⟨a, b, h⟩ <;> cases USE_BENAPHORE <;>
      simp only [RecursiveLock.Unlock, RecursiveLock.release, hto, ne_eq, not_true_eq_false,
        if_false, if_true, hw, Bool.false_eq_true] at h <;>
      split_ifs at h <;>
      simp only [UnlockResult.returned.injEq, reduceCtorEq] at h
    all_goals
      obtain ⟨-, rfl⟩ := h
      dsimp only
      refine ⟨⟨fun h1 => ?_, fun h2 => ?_⟩, ?_⟩ <;> omega
  · rcases h with ⟨st, h⟩ | ⟨a, b, h⟩
    · simp [RecursiveLock.Unlock, hto] at h
    · simp only [RecursiveLock.Unlock, ne_eq, hto, not_false_eq_true, if_true,
        UnlockResult.panic.injEq] at h
      obtain ⟨-, -, rfl⟩ := h
      exact ⟨hI, hR⟩

/-- A parked caller other than `-1` that is handed the semaphore becomes the
owner at depth 1. -/
theorem resume_keeps_invariant (t : Int) (s s1 : RecursiveLock) (ht : t ≠ -1)
    (h : s.resume t = some s1) :
    s1.depthIffOwned ∧ s1.fOwnerCount < 2 ^ 31 := by
  unfold RecursiveLock.depthIffOwned
  unfold RecursiveLock.resume at h
  cases hk : wake s.fSemaphore with
  | none => simp [hk] at h
  | some k =>
    simp only [hk, RecursiveLock.own, if_true, Option.some.injEq] at h
    subst h
    exact ⟨⟨fun _ => ht, fun _ => show (0 : Int) < 1 by decide⟩,
      show (1 : Int) < 2 ^ 31 by decide⟩

/-- Every event of a thread other than `-1` that does not overflow the depth
keeps `depth > 0 ⇔ owner ≠ none` and the depth below `2^31`. -/
theorem recApply_keeps_invariant (USE_BENAPHORE : Bool) (e : RecEvent) (s s1 : RecursiveLock)
    (hI : s.depthIffOwned) (hR : s.fOwnerCount < 2 ^ 31) (ht : e.thread ≠ -1)
    (ho : e.overflows s = false) (h : recApply USE_BENAPHORE s e = some s1) :
    s1.depthIffOwned ∧ s1.fOwnerCount < 2 ^ 31 := by
  cases e with
  | Lock t =>
    have ho1 : ¬ (t = s.fOwner ∧ s.fOwnerCount = 2 ^ 31 - 1) := by
      simpa [RecEvent.overflows] using ho
    refine lock_keeps_invariant USE_BENAPHORE t INFINITE s s1 hI hR ht ho1 ?_
    simp only [recApply, RecursiveLock.Lock] at h
    cases hl : s.LockWithTimeout USE_BENAPHORE t INFINITE with
    | returned st s2 => rw [hl] at h; exact Or.inl ⟨st, by simpa using h⟩
    | blocked s2 => rw [hl] at h; exact Or.inr (by simpa using h)
  | LockWithTimeout t timeout =>
    have ho1 : ¬ (t = s.fOwner ∧ s.fOwnerCount = 2 ^ 31 - 1) := by
      simpa [RecEvent.overflows] using ho
    refine lock_keeps_invariant USE_BENAPHORE t timeout s s1 hI hR ht ho1 ?_
    simp only [recApply] at h
    cases hl : s.LockWithTimeout USE_BENAPHORE t timeout with
    | returned st s2 => rw [hl] at h; exact Or.inl ⟨st, by simpa using h⟩
    | blocked s2 => rw [hl] at h; exact Or.inr (by simpa using h)
  | Unlock t =>
    refine unlock_keeps_invariant USE_BENAPHORE t s s1 hI hR ht ?_
    simp only [recApply] at h
    cases hl : s.Unlock USE_BENAPHORE t with
    | returned st s2 => rw [hl] at h; exact Or.inl ⟨st, by simpa using h⟩
    | panic a b s2 => rw [hl] at h; exact Or.inr ⟨a, b, by simpa using h⟩
  | Resumed t => exact resume_keeps_invariant t s s1 ht h

/-- C8 (as amended): starting from a lock in which `depth > 0 ⇔ owner ≠ none`
holds and the depth is an `int32` (a lock constructed over memory holding 0, or
any lock right after a successful `Lock()`), every sequence of `Lock()`,
`LockWithTimeout(t)` and `Unlock()` calls and wake-ups by threads other than
`-1` in which no lock call is made by the owner at depth `2^31 - 1` ends in a
state where `depth > 0 ⇔ owner ≠ none` holds. -/
theorem C8_invariant_in_range (USE_BENAPHORE : Bool) (es : List RecEvent)
    (s0 s : RecursiveLock) (hI : s0.depthIffOwned) (hR : s0.fOwnerCount < 2 ^ 31)
    (ht : ∀ e ∈ es, e.thread ≠ -1) (hr : depthInRange USE_BENAPHORE s0 es = true)
    (h : recTrace USE_BENAPHORE s0 es = some s) :
    s.depthIffOwned := by
  induction es generalizing s0 with
  | nil =>
    simp only [recTrace, Option.some.injEq] at h
    exact h ▸ hI
  | cons e es ih =>
    cases ha : recApply USE_BENAPHORE s0 e with
    | none => simp [recTrace, ha] at h
    | some s1 =>
      simp only [recTrace, ha, Option.some_bind] at h
      simp only [depthInRange, ha, Bool.and_eq_true, Bool.not_eq_true'] at hr
      obtain ⟨i1, i2⟩ := recApply_keeps_invariant USE_BENAPHORE e s0 s1 hI hR
        (ht e (List.mem_cons_self _ _)) hr.1 ha
      exact ih s1 i1 i2 (fun x hx => ht x (List.mem_cons_of_mem _ hx)) hr.2 h

/-- C8 at a concrete input: on a lock constructed over zeroed memory, thread 7
locks twice and unlocks once, thread 8 calls `Lock()` and is parked, thread 7
unlocks, thread 8 is handed the lock. -/
theorem C8_invariant_in_range_witness :
    recTrace false (RecursiveLock.new false 0)
        [.Lock 7, .Lock 7, .Unlock 7, .Lock 8, .Unlock 7, .Resumed 8]
      = some ⟨⟨0, 2, 1⟩, 0, 8, 1⟩
    ∧ (⟨⟨0, 2, 1⟩, 0, 8, 1⟩ : RecursiveLock).depthIffOwned :=
  ⟨by decide,
    C8_invariant_in_range false [.Lock 7, .Lock 7, .Unlock 7, .Lock 8, .Unlock 7, .Resumed 8]
      (RecursiveLock.new false 0) _
      (by unfold RecursiveLock.depthIffOwned; decide) (by decide) (by decide) (by decide)
      (by decide)⟩

/-! ## Readers alone on the fast ReadWriteLock -/

/-- With `held ≤ MAX_READERS` read locks outstanding and the counter at
`MAX_READERS - held`, reader calls that stay within the bounds are served on the
counter alone. -/
theorem fast_readers_uncontended (held : Nat) (l : FastReadWriteLock) (cs : List ReadCall)
    (hc : l.fCount = MAX_READERS - (held : Int)) (hh : (held : Int) ≤ MAX_READERS)
    (hv : readersWithin held cs = true) :
    ∃ l1, fastReadRun l cs = some (readersExpected held cs, l1)
      ∧ l1.fSemaphore = l.fSemaphore ∧ l1.fWriteLock = l.fWriteLock := by
  have hM : MAX_READERS = 100000 := rfl
  induction cs generalizing held l with
  | nil => exact ⟨l, rfl, rfl, rfl⟩
  | cons c cs ih =>
    cases c with
    | Lock =>
      simp only [readersWithin, Bool.and_eq_true, decide_eq_true_eq] at hv
      obtain ⟨hb, hv⟩ := hv
      have hw : wrap32 (l.fCount + -1) = MAX_READERS - ((held + 1 : Nat) : Int) := by
        rw [wrap32_of_int32] <;> rw [hc] <;> push_cast <;> omega
      have hpos : ¬ l.fCount ≤ 0 := by rw [hc]; omega
      obtain ⟨l1, h1, h2, h3⟩ := ih (held + 1) { l with fCount := wrap32 (l.fCount + -1) }
        hw (by push_cast; omega) hv
      refine ⟨l1, ?_, h2, h3⟩
      rw [hw] at h1
      simp only [fastReadRun, FastReadWriteLock.Lock, atomic_add, hpos, if_false, hw, h1,
        Option.map_some', readersExpected]
    | Unlock =>
      simp only [readersWithin, Bool.and_eq_true, decide_eq_true_eq] at hv
      obtain ⟨hb, hv⟩ := hv
      have hw : wrap32 (l.fCount + 1) = MAX_READERS - ((held - 1 : Nat) : Int) := by
        rw [wrap32_of_int32] <;> rw [hc] <;> omega
      have hpos : ¬ l.fCount < 0 := by rw [hc]; omega
      have hu : l.Unlock = { l with fCount := wrap32 (l.fCount + 1) } := by
        simp only [FastReadWriteLock.Unlock, atomic_add, hpos, if_false]
      obtain ⟨l1, h1, h2, h3⟩ := ih (held - 1) { l with fCount := wrap32 (l.fCount + 1) }
        hw (by omega) hv
      refine ⟨l1, ?_, h2, h3⟩
      rw [hw] at h1
      simp only [fastReadRun, hu, hw, h1, Option.map_some', readersExpected]

/-- C11: on a freshly initialised fast lock, every sequence of read `Lock()` /
`Unlock()` calls that keeps the number of outstanding read locks between 0 and
`MAX_READERS` runs to its end; every `Lock()` returns `B_OK`, the counter after
each call is `MAX_READERS` minus the outstanding read locks, and the kernel
semaphore is as `create_semaphore` left it: neither its acquire nor its release
has been called. -/
theorem C11_fast_readers_only (USE_BENAPHORE : Bool) (cs : List ReadCall)
    (hv : readersWithin 0 cs = true) :
    ∃ l, fastReadRun (FastReadWriteLock.Initialize USE_BENAPHORE) cs
          = some (readersExpected 0 cs, l)
      ∧ l.fSemaphore.acquires = 0 ∧ l.fSemaphore.releases = 0 ∧ l.fSemaphore.units = 0
      ∧ l.fWriteLock = Semaphore.new USE_BENAPHORE := by
  obtain ⟨l, h1, h2, h3⟩ := fast_readers_uncontended 0
    (FastReadWriteLock.Initialize USE_BENAPHORE) cs (by simp [FastReadWriteLock.Initialize])
    (by decide) hv
  exact ⟨l, h1, by rw [h2]; rfl, by rw [h2]; rfl, by rw [h2]; rfl, h3⟩

/-- C11 at a concrete input: two readers lock, one unlocks, a third locks. -/
theorem C11_fast_readers_only_witness :
    readersWithin 0 [.Lock, .Lock, .Unlock, .Lock] = true
    ∧ ∃ l, fastReadRun (FastReadWriteLock.Initialize false) [.Lock, .Lock, .Unlock, .Lock]
          = some (readersExpected 0 [.Lock, .Lock, .Unlock, .Lock], l)
      ∧ l.fSemaphore.acquires = 0 ∧ l.fSemaphore.releases = 0 ∧ l.fSemaphore.units = 0
      ∧ l.fWriteLock = Semaphore.new false :=
  ⟨by decide, C11_fast_readers_only false [.Lock, .Lock, .Unlock, .Lock] (by decide)⟩

/-! ## SimpleLock -/

/-- A run is a first call followed by the run of the remaining calls. -/
theorem simpleRun_cons {s s1 s2 : SimpleLock} {c : SimpleCall} {cs : List SimpleCall}
    {o : Option (Int × Nat)} {os : List (Option (Int × Nat))}
    (h1 : simpleStep s c = some (o, s1)) (h2 : simpleRun s1 cs = some (os, s2)) :
    simpleRun s (c :: cs) = some (o :: os, s2) := by
  simp [simpleRun, h1, h2]

/-- A `Lock()` by `A` on a lock that is free or held by `A` leaves the loop in
its first pass, without `snooze`, and returns `B_OK` with `A` as holder and the
depth incremented. -/
theorem simple_lock_step (A h d : Int) (hh : h = -1 ∨ h = A) :
    simpleStep ⟨h, d⟩ (.Lock A) = some (some (B_OK, 0), ⟨A, wrap32 (d + 1)⟩) := by
  rcases hh with rfl | rfl
  · simp [simpleStep, SimpleLock.Lock, SimpleLock.pass, atomic_read, atomic_inc]
  · by_cases hA : h = -1
    · subst hA
      simp [simpleStep, SimpleLock.Lock, SimpleLock.pass, atomic_read, atomic_inc]
    · simp [simpleStep, SimpleLock.Lock, SimpleLock.pass, atomic_read, atomic_inc, hA]

/-- `n` consecutive `Lock()` calls by `A` on a lock that is free or held by `A`. -/
theorem simple_locks (A h d : Int) (hh : h = -1 ∨ h = A) (n : Nat) :
    simpleRun ⟨h, wrap32 d⟩ (List.replicate (n + 1) (.Lock A))
      = some (List.replicate (n + 1) (some (B_OK, 0)), ⟨A, wrap32 (d + (n + 1 : Nat))⟩) := by
  induction n generalizing h d with
  | zero =>
    have h1 := simple_lock_step A h (wrap32 d) hh
    rw [wrap32_add_left] at h1
    exact simpleRun_cons h1 rfl
  | succ n ih =>
    have h1 := simple_lock_step A h (wrap32 d) hh
    rw [wrap32_add_left] at h1
    have h2 := ih A (d + 1) (Or.inr rfl)
    have e : d + 1 + ((n + 1 : Nat) : Int) = d + ((n + 1 + 1 : Nat) : Int) := by
      push_cast; ring
    rw [e] at h2
    rw [List.replicate_succ, List.replicate_succ (n := n + 1) (a := some (B_OK, 0))]
    exact simpleRun_cons h1 h2

/-- `Unlock()` calls above depth 1: each takes one off the depth and leaves the
holder. -/
theorem simple_unlocks_inner (A : Int) (j m : Nat) (hj : 1 ≤ j) (hm : j + m < 2 ^ 31) :
    simpleRun ⟨A, ((j + m : Nat) : Int)⟩ (List.replicate m (.Unlock A))
      = some (List.replicate m none, ⟨A, (j : Int)⟩) := by
  induction m with
  | zero => rfl
  | succ m ih =>
    have hw : wrap32 (((j + (m + 1) : Nat) : Int) - 1) = ((j + m : Nat) : Int) := by
      rw [wrap32_of_int32] <;> push_cast <;> omega
    have hne : ((j + m : Nat) : Int) ≠ 0 := by omega
    rw [List.replicate_succ, List.replicate_succ]
    refine simpleRun_cons ?_ (ih (by omega))
    simp only [simpleStep, SimpleLock.Unlock, atomic_dec, atomic_read, hw, hne, if_false]

/-- `n + 1` `Unlock()` calls at depth `n + 1`: the last one brings the depth to 0
and resets the holder. -/
theorem simple_unlocks (A : Int) (n : Nat) (hn : n + 1 < 2 ^ 31) :
    simpleRun ⟨A, ((n + 1 : Nat) : Int)⟩ (List.replicate (n + 1) (.Unlock A))
      = some (List.replicate (n + 1) none, ⟨-1, 0⟩) := by
  induction n with
  | zero =>
    refine simpleRun_cons ?_ rfl
    have hw : wrap32 (((0 + 1 : Nat) : Int) - 1) = 0 := by decide
    simp only [simpleStep, SimpleLock.Unlock, atomic_dec, atomic_read, hw, if_true]
  | succ n ih =>
    have hw : wrap32 (((n + 1 + 1 : Nat) : Int) - 1) = ((n + 1 : Nat) : Int) := by
      rw [wrap32_of_int32] <;> push_cast <;> omega
    have hne : ((n + 1 : Nat) : Int) ≠ 0 := by omega
    rw [List.replicate_succ, List.replicate_succ (n := n + 1) (a := none)]
    refine simpleRun_cons ?_ (ih (by omega))
    simp only [simpleStep, SimpleLock.Unlock, atomic_dec, atomic_read, hw, hne, if_false]

/-- C14 (counterexample to the claim as stated, N = 2^31): 2^31 consecutive
`Lock()` calls by thread 7 on a fresh `SimpleLock` all return `B_OK` without
`snooze` and leave thread 7 as holder, but the `int32` depth is `-2^31`, not
`N = 2^31`. -/
theorem C14_depth_is_not_N_at_2_pow_31 :
    ∃ r, simpleRun SimpleLock.new (List.replicate (2 ^ 31) (.Lock 7)) = some r
      ∧ r.1 = List.replicate (2 ^ 31) (some (B_OK, 0))
      ∧ r.2.fHolder = 7 ∧ r.2.fCount = -2 ^ 31 ∧ r.2.fCount ≠ ((2 ^ 31 : Nat) : Int) := by
  have h := simple_locks 7 (-1) 0 (Or.inl rfl) 2147483647
  have e : (2147483647 + 1 : Nat) = 2 ^ 31 := by norm_num
  have hw : wrap32 (0 + ((2147483647 + 1 : Nat) : Int)) = -2 ^ 31 := by decide
  have h0 : (⟨-1, wrap32 0⟩ : SimpleLock) = SimpleLock.new := by decide
  rw [hw, e, h0] at h
  exact ⟨_, h, rfl, rfl, rfl, by decide⟩

/-- C14 (as amended, `1 ≤ N < 2^31`): on a fresh `SimpleLock`, `N` consecutive
`Lock()` calls by a thread `A ≠ -1` each return `B_OK` after zero `snooze` calls
and end with holder `A`, depth `N`; then `IsLocked()` is true for `A` and false
for every `B ≠ A`; fewer than `N` `Unlock()` calls leave `A` as holder, and `N`
`Unlock()` calls end with no holder, depth 0 and `IsLocked()` false for `A`. -/
theorem C14_simple_lock_reentrancy (A : Int) (hA : A ≠ -1) (N : Nat) (h1 : 1 ≤ N)
    (h2 : N < 2 ^ 31) :
    simpleRun SimpleLock.new (List.replicate N (.Lock A))
        = some (List.replicate N (some (B_OK, 0)), ⟨A, (N : Int)⟩)
    ∧ SimpleLock.IsLocked A ⟨A, (N : Int)⟩ = true
    ∧ (∀ B, B ≠ A → SimpleLock.IsLocked B ⟨A, (N : Int)⟩ = false)
    ∧ (∀ m, m < N →
        simpleRun ⟨A, (N : Int)⟩ (List.replicate m (.Unlock A))
          = some (List.replicate m none, ⟨A, ((N - m : Nat) : Int)⟩))
    ∧ simpleRun ⟨A, (N : Int)⟩ (List.replicate N (.Unlock A))
        = some (List.replicate N none, ⟨-1, 0⟩)
    ∧ SimpleLock.IsLocked A ⟨-1, 0⟩ = false := by
  obtain ⟨n, rfl⟩ : ∃ n, N = n + 1 := ⟨N - 1, by omega⟩
  refine ⟨?_, ?_, ?_, ?_, simple_unlocks A n h2, ?_⟩
  · have h := simple_locks A (-1) 0 (Or.inl rfl) n
    have hw : wrap32 (0 + ((n + 1 : Nat) : Int)) = ((n + 1 : Nat) : Int) := by
      rw [wrap32_of_int32] <;> push_cast <;> omega
    have h0 : (⟨-1, wrap32 0⟩ : SimpleLock) = SimpleLock.new := by decide
    rw [hw, h0] at h
    exact h
  · simp [SimpleLock.IsLocked, atomic_read]
  · intro B hB
    simp [SimpleLock.IsLocked, atomic_read, Ne.symm hB]
  · intro m hm
    have h := simple_unlocks_inner A (n + 1 - m) m (by omega) (by omega)
    have e : n + 1 - m + m = n + 1 := by omega
    rw [e] at h
    exact h
  · simp [SimpleLock.IsLocked, atomic_read, Ne.symm hA]

/-- C14 at a concrete input: thread 7 locks a fresh `SimpleLock` twice. -/
theorem C14_simple_lock_reentrancy_witness :
    ((7 : Int) ≠ -1 ∧ 1 ≤ 2 ∧ 2 < 2 ^ 31)
    ∧ (simpleRun SimpleLock.new (List.replicate 2 (.Lock 7))
        = some (List.replicate 2 (some (B_OK, 0)), ⟨7, ((2 : Nat) : Int)⟩)
    ∧ SimpleLock.IsLocked 7 ⟨7, ((2 : Nat) : Int)⟩ = true
    ∧ (∀ B, B ≠ 7 → SimpleLock.IsLocked B ⟨7, ((2 : Nat) : Int)⟩ = false)
    ∧ (∀ m, m < 2 →
        simpleRun ⟨7, ((2 : Nat) : Int)⟩ (List.replicate m (.Unlock 7))
          = some (List.replicate m none, ⟨7, ((2 - m : Nat) : Int)⟩))
    ∧ simpleRun ⟨7, ((2 : Nat) : Int)⟩ (List.replicate 2 (.Unlock 7))
        = some (List.replicate 2 none, ⟨-1, 0⟩)
    ∧ SimpleLock.IsLocked 7 ⟨-1, 0⟩ = false) :=
  ⟨⟨by decide, by decide, by decide⟩,
    C14_simple_lock_reentrancy 7 (by decide) 2 (by decide) (by decide)⟩

/-- Every completed call by a thread other than `-1` that does not overflow the
depth keeps `depth > 0 ⇒ holder ≠ none`. -/
theorem simpleStep_keeps_invariant (c : SimpleCall) (s s1 : SimpleLock)
    (o : Option (Int × Nat)) (hI : s.depthImpliesHeld) (hR : -2 ^ 31 ≤ s.fCount ∧ s.fCount < 2 ^ 31)
    (ht : c.thread ≠ -1) (ho : c.overflows s = false) (h : simpleStep s c = some (o, s1)) :
    s1.depthImpliesHeld ∧ (-2 ^ 31 ≤ s1.fCount ∧ s1.fCount < 2 ^ 31) := by
  unfold SimpleLock.depthImpliesHeld at hI ⊢
  cases c with
  | Lock t =>
    have ht1 : t ≠ -1 := ht
    simp only [simpleStep, SimpleLock.Lock, SimpleLock.pass, atomic_read, atomic_inc] at h
    split_ifs at h with c1 c2 <;>
      simp only [Option.some.injEq, Prod.mk.injEq, reduceCtorEq] at h
    · obtain ⟨-, rfl⟩ := h
      exact ⟨fun _ => ht1, wrap32_range _⟩
    · obtain ⟨-, rfl⟩ := h
      exact ⟨fun _ => c2 ▸ ht1, wrap32_range _⟩
  | Unlock t =>
    have hno : s.fCount ≠ -2 ^ 31 := by simpa [SimpleCall.overflows] using ho
    have hw : wrap32 (s.fCount - 1) = s.fCount - 1 := by
      rw [wrap32_of_int32] <;> omega
    simp only [simpleStep, SimpleLock.Unlock, atomic_dec, atomic_read, hw, Option.some.injEq,
      Prod.mk.injEq] at h
    obtain ⟨-, rfl⟩ := h
    split_ifs with c1
    · exact ⟨fun hp => by dsimp only at hp; omega, by dsimp only; omega⟩
    · refine ⟨fun hp => ?_, by dsimp only; omega⟩
      dsimp only at hp ⊢
      exact hI (by omega)

/-- C15: starting from a newly constructed `SimpleLock`, every sequence of
completed `Lock()` and `Unlock()` calls by threads other than `-1` during which
the depth stays within `int32` ends in a state where `depth > 0` implies
`holder ≠ none`. -/
theorem C15_simple_lock_invariant (cs : List SimpleCall) (s : SimpleLock)
    (os : List (Option (Int × Nat))) (ht : ∀ c ∈ cs, c.thread ≠ -1)
    (hr : simpleInRange SimpleLock.new cs = true)
    (h : simpleRun SimpleLock.new cs = some (os, s)) :
    s.depthImpliesHeld := by
  have key : ∀ (cs : List SimpleCall) (s0 s : SimpleLock) (os : List (Option (Int × Nat))),
      s0.depthImpliesHeld → (-2 ^ 31 ≤ s0.fCount ∧ s0.fCount < 2 ^ 31) →
      (∀ c ∈ cs, c.thread ≠ -1) → simpleInRange s0 cs = true →
      simpleRun s0 cs = some (os, s) → s.depthImpliesHeld := by
    intro cs
    induction cs with
    | nil =>
      intro s0 s os hI _ _ _ h
      simp only [simpleRun, Option.some.injEq, Prod.mk.injEq] at h
      exact h.2 ▸ hI
    | cons c cs ih =>
      intro s0 s os hI hR ht hr h
      cases ha : simpleStep s0 c with
      | none => simp [simpleRun, ha] at h
      | some p =>
        obtain ⟨o, s1⟩ := p
        simp only [simpleInRange, ha, Bool.and_eq_true, Bool.not_eq_true'] at hr
        obtain ⟨i1, i2⟩ := simpleStep_keeps_invariant c s0 s1 o hI hR
          (ht c (List.mem_cons_self _ _)) hr.1 ha
        cases hrun : simpleRun s1 cs with
        | none => simp [simpleRun, ha, hrun] at h
        | some q =>
          obtain ⟨os1, s2⟩ := q
          simp only [simpleRun, ha, hrun, Option.map_some', Option.some.injEq,
            Prod.mk.injEq] at h
          obtain ⟨-, rfl⟩ := h
          exact ih s1 s2 os1 i1 i2 (fun x hx => ht x (List.mem_cons_of_mem _ hx)) hr.2 hrun
  exact key cs SimpleLock.new s os (by unfold SimpleLock.depthImpliesHeld; decide)
    (by decide) ht hr h

/-- C15 at a concrete input: thread 7 locks twice, thread 8 unlocks twice,
thread 8 locks. -/
theorem C15_simple_lock_invariant_witness :
    simpleRun SimpleLock.new [.Lock 7, .Lock 7, .Unlock 8, .Unlock 8, .Lock 8]
      = some ([some (B_OK, 0), some (B_OK, 0), none, none, some (B_OK, 0)], ⟨8, 1⟩)
    ∧ (⟨8, 1⟩ : SimpleLock).depthImpliesHeld :=
  ⟨by decide,
    C15_simple_lock_invariant [.Lock 7, .Lock 7, .Unlock 8, .Unlock 8, .Lock 8] ⟨8, 1⟩
      [some (B_OK, 0), some (B_OK, 0), none, none, some (B_OK, 0)]
      (by decide) (by decide) (by decide)⟩

/-- C16: for every handle `h` that `create_semaphore` returned, `InitCheck()`
returns `B_OK` if `h ≥ 0` and `h` itself if `h < 0`; it returns `B_OK` exactly
for the handles `h ≥ 0`, and what it returns for an `h < 0` is negative. -/
theorem C16_InitCheck (h : Int) :
    Semaphore.InitCheck h = (if 0 ≤ h then B_OK else h)
    ∧ (Semaphore.InitCheck h = B_OK ↔ 0 ≤ h)
    ∧ (Semaphore.InitCheck h < 0 ↔ h < 0) := by
  unfold Semaphore.InitCheck B_OK
  refine ⟨?_, ?_, ?_⟩ <;> split_ifs <;> omega

/-- A `Lock()` by `t` on a lock held by another thread is still in its loop
after `n` passes, has slept `n` times and has changed nothing. -/
theorem simple_lock_spins (t : Int) (s : SimpleLock) (h1 : s.fHolder ≠ -1)
    (h2 : s.fHolder ≠ t) (n : Nat) :
    s.Lock t n = .spinning n s := by
  induction n with
  | zero => rfl
  | succ n ih =>
    simp only [SimpleLock.Lock, SimpleLock.pass, atomic_read, h1, h2, if_false, ih]

/-- C19: `Lock()` by `t` returns after zero `snooze` calls exactly when at entry
the holder is none or `t` (and then within its first pass, with `B_OK`); when
the holder is another thread and nothing changes it, then for every `n` the
call is still in its loop after `n` passes, having slept `n` times; and whenever
`Lock()` returns, it returns `B_OK`. -/
theorem C19_simple_lock_termination (t : Int) (s : SimpleLock) :
    ((∃ n s1, s.Lock t n = .returned B_OK 0 s1) ↔ (s.fHolder = -1 ∨ s.fHolder = t))
    ∧ ((s.fHolder = -1 ∨ s.fHolder = t) →
        ∀ n, s.Lock t (n + 1) = .returned B_OK 0 ⟨t, wrap32 (s.fCount + 1)⟩)
    ∧ (s.fHolder ≠ -1 → s.fHolder ≠ t → ∀ n, s.Lock t n = .spinning n s)
    ∧ (∀ n st k s1, s.Lock t n = .returned st k s1 → st = B_OK) := by
  have hret : (s.fHolder = -1 ∨ s.fHolder = t) →
      ∀ n, s.Lock t (n + 1) = .returned B_OK 0 ⟨t, wrap32 (s.fCount + 1)⟩ := by
    intro hh n
    rcases hh with h | h
    · simp [SimpleLock.Lock, SimpleLock.pass, atomic_read, atomic_inc, h]
    · by_cases h1 : s.fHolder = -1
      · simp [SimpleLock.Lock, SimpleLock.pass, atomic_read, atomic_inc, h1]
      · have ht : ¬ t = -1 := h ▸ h1
        simp [SimpleLock.Lock, SimpleLock.pass, atomic_read, atomic_inc, h, ht]
  have hspin := simple_lock_spins t s
  refine ⟨⟨?_, fun hh => ⟨1, _, hret hh 0⟩⟩, hret, hspin, ?_⟩
  · rintro ⟨n, s1, hn⟩
    by_contra hc
    push_neg at hc
    rw [hspin hc.1 hc.2 n] at hn
    cases hn
  · intro n st k s1 hn
    by_cases hc : s.fHolder = -1 ∨ s.fHolder = t
    · cases n with
      | zero => simp [SimpleLock.Lock] at hn
      | succ n =>
        rw [hret hc n] at hn
        cases hn
        rfl
    · push_neg at hc
      rw [hspin hc.1 hc.2 n] at hn
      cases hn

/-- C19 at concrete inputs: thread 8 calls `Lock()` on a free lock, and on a lock
that thread 7 holds. -/
theorem C19_simple_lock_termination_witness :
    SimpleLock.Lock 8 ⟨-1, 0⟩ 1 = .returned B_OK 0 ⟨8, 1⟩
    ∧ SimpleLock.Lock 8 ⟨7, 1⟩ 5 = .spinning 5 ⟨7, 1⟩ :=
  ⟨(C19_simple_lock_termination 8 ⟨-1, 0⟩).2.1 (Or.inl rfl) 0,
    (C19_simple_lock_termination 8 ⟨7, 1⟩).2.2.1 (by decide) (by decide) 5⟩

/-- C20: `Unlock()` does the same whoever calls it: for every lock state and
callers `t1`, `t2` the results agree; the depth is decremented (as an `int32`)
and the holder is reset to none exactly when the new depth is 0; no status and
no error comes back.  In particular thread 8 releases a lock that thread 7
holds at depth 1. -/
theorem C20_simple_unlock_ignores_caller (s : SimpleLock) (t1 t2 : Int) :
    simpleStep s (.Unlock t1) = simpleStep s (.Unlock t2)
    ∧ simpleStep s (.Unlock t1)
        = some (none, ⟨if wrap32 (s.fCount - 1) = 0 then -1 else s.fHolder,
                       wrap32 (s.fCount - 1)⟩)
    ∧ simpleStep ⟨7, 1⟩ (.Unlock 8) = some (none, ⟨-1, 0⟩) := by
  refine ⟨rfl, ?_, by decide⟩
  simp only [simpleStep, SimpleLock.Unlock, atomic_dec, atomic_read]
  split_ifs <;> rfl

/-- A thread that takes its atomic steps alone, on a lock that is free or its
own, does in four steps what `SimpleLock.Lock` does in one pass. -/
theorem lockAtoms_alone (t : Int) (s : SimpleLock) (hh : s.fHolder = -1 ∨ s.fHolder = t) :
    twoRun ⟨s, ⟨t, .atRead⟩, ⟨t, .returned⟩⟩ [false, false, false, false]
        = ⟨⟨t, wrap32 (s.fCount + 1)⟩, ⟨t, .returned⟩, ⟨t, .returned⟩⟩
    ∧ s.Lock t 1 = .returned B_OK 0 ⟨t, wrap32 (s.fCount + 1)⟩ := by
  rcases hh with h | h
  · simp [twoRun, lockAtom, SimpleLock.Lock, SimpleLock.pass, atomic_read, atomic_inc, h]
  · by_cases h1 : s.fHolder = -1
    · simp [twoRun, lockAtom, SimpleLock.Lock, SimpleLock.pass, atomic_read, atomic_inc, h1]
    · have ht : ¬ t = -1 := h ▸ h1
      obtain ⟨hd, c⟩ := s
      subst h
      simp [twoRun, lockAtom, SimpleLock.Lock, SimpleLock.pass, atomic_read, atomic_inc, ht]

/-- C17 (the code at the failing interleaving): threads 1 and 2 call `Lock()` on
a fresh `SimpleLock`; thread 1 reads the holder, thread 2 reads the holder (both
see none), thread 1 sets the holder, thread 2 sets the holder, then each passes
its `break` test: both have left the retry loop and nobody has unlocked.  Two
steps later both have returned, the depth is 2 and the holder is thread 2. -/
theorem C17_both_threads_leave_the_loop :
    (twoRun ⟨SimpleLock.new, ⟨1, .atRead⟩, ⟨2, .atRead⟩⟩
        [false, true, false, true, false, true]
      = ⟨⟨2, 0⟩, ⟨1, .atInc⟩, ⟨2, .atInc⟩⟩)
    ∧ (⟨1, .atInc⟩ : LockingThread).leftLoop = true
    ∧ (⟨2, .atInc⟩ : LockingThread).leftLoop = true
    ∧ (twoRun ⟨SimpleLock.new, ⟨1, .atRead⟩, ⟨2, .atRead⟩⟩
        [false, true, false, true, false, true, false, true]
      = ⟨⟨2, 2⟩, ⟨1, .returned⟩, ⟨2, .returned⟩⟩) := by
  decide

/-- C18 (counterexample to the claim as stated): with the counter at `-5` (a
writer holds the lock and five readers are parked) the fast `UnlockWrite()`
leaves the counter at `99995`, which is not negative, and yet calls the release
once, for five units. -/
theorem C18_release_although_result_not_negative :
    FastReadWriteLock.UnlockWrite ⟨⟨0, 5, 0⟩, -5, Semaphore.new false⟩
        = ⟨⟨5, 5, 1⟩, 99995, Semaphore.new false⟩
    ∧ ¬ (FastReadWriteLock.UnlockWrite ⟨⟨0, 5, 0⟩, -5, Semaphore.new false⟩).fCount < 0 := by
  decide

/-- C18 (as amended): the fast `UnlockWrite()` adds `MAX_READERS` to the counter
(in `int32` arithmetic) and calls the release of the semaphore, once, exactly
when the value of the counter before the addition is negative; when that value
is not negative the semaphore is left as it is. -/
theorem C18_release_iff_negative_before (l : FastReadWriteLock) :
    l.UnlockWrite.fCount = wrap32 (l.fCount + MAX_READERS)
    ∧ l.UnlockWrite.fSemaphore.releases
        = l.fSemaphore.releases + (if l.fCount < 0 then 1 else 0)
    ∧ l.UnlockWrite.fSemaphore
        = (if l.fCount < 0 then
            (unlock_semaphore_ex l.fSemaphore
              (if l.fCount ≤ -MAX_READERS then 1 else -l.fCount)).2
          else l.fSemaphore)
    ∧ l.UnlockWrite.fWriteLock = l.fWriteLock := by
  simp only [FastReadWriteLock.UnlockWrite, atomic_add]
  split_ifs <;> simp [unlock_semaphore_ex]

/-! ## Scoped guards -/

/-- A `Locker` constructed on a semaphore and destroyed at once puts the units
and the counter back. -/
theorem Locker_round_trip (b : Bool) (lock l1 : Semaphore) (g : Locker)
    (hr : -2 ^ 31 < lock.fCount ∧ lock.fCount < 2 ^ 31)
    (hn : Locker.new b lock = some (g, l1)) (hs : g.Status = B_OK) :
    (Locker.delete b g l1).fSemaphore.units = lock.fSemaphore.units
      ∧ (Locker.delete b g l1).fCount = lock.fCount := by
  have hd : wrap32 (lock.fCount - 1) = lock.fCount - 1 := by
    rw [wrap32_of_int32] <;> omega
  have hi : wrap32 (lock.fCount - 1 + 1) = lock.fCount := by
    rw [wrap32_of_int32] <;> omega
  cases b <;>
    simp only [Locker.new, Semaphore.Lock, Semaphore.acquire, lock_semaphore, atomic_dec,
      atomic_read, hd, if_true, Bool.false_eq_true, if_false] at hn <;>
    split_ifs at hn <;>
    simp only [Option.some.injEq, Prod.mk.injEq, reduceCtorEq] at hn
  all_goals
    obtain ⟨rfl, rfl⟩ := hn
    simp only [Locker.delete, Locker.Status, if_true, Semaphore.Unlock, Semaphore.release,
      unlock_semaphore, atomic_inc, atomic_read, hi, Bool.false_eq_true, if_false]
    try split_ifs
    all_goals refine ⟨?_, ?_⟩ <;> first | rfl | omega | (dsimp only; first | done | omega)

/-- A `ReadLocked` constructed on a fast lock and destroyed at once puts the
counter and the units back. -/
theorem FastReadLocked_round_trip (lock l1 : FastReadWriteLock) (g : FastReadLocked)
    (hr : -2 ^ 31 < lock.fCount ∧ lock.fCount < 2 ^ 31)
    (hn : FastReadLocked.new lock = some (g, l1)) (hs : g.fStatus = B_OK) :
    (FastReadLocked.delete g l1).fSemaphore.units = lock.fSemaphore.units
      ∧ (FastReadLocked.delete g l1).fCount = lock.fCount
      ∧ (FastReadLocked.delete g l1).fWriteLock = lock.fWriteLock := by
  have hd : wrap32 (lock.fCount + -1) = lock.fCount - 1 := by
    rw [wrap32_of_int32] <;> omega
  have hi : wrap32 (lock.fCount - 1 + 1) = lock.fCount := by
    rw [wrap32_of_int32] <;> omega
  simp only [FastReadLocked.new, FastReadWriteLock.Lock, lock_semaphore, atomic_add, hd] at hn
  split_ifs at hn <;> simp only [Option.some.injEq, Prod.mk.injEq, reduceCtorEq] at hn
  all_goals
    obtain ⟨rfl, rfl⟩ := hn
    simp only [FastReadLocked.delete, if_true, FastReadWriteLock.Unlock, unlock_semaphore,
      atomic_add, hi]
    try split_ifs
    all_goals refine ⟨?_, ?_, ?_⟩ <;> first | rfl | omega | (dsimp only; first | done | omega)

/-- A `ReadLocked` constructed on a simple lock and destroyed at once puts the
unit back. -/
theorem ReadLocked_round_trip (lock l1 : ReadWriteLock) (g : ReadLocked)
    (hn : ReadLocked.new lock = some (g, l1)) (hs : g.fStatus = B_OK) :
    (ReadLocked.delete g l1).fSemaphore.units = lock.fSemaphore.units := by
  simp only [ReadLocked.new, ReadWriteLock.Lock, lock_semaphore] at hn
  split_ifs at hn with hu
  simp only [Option.some.injEq, Prod.mk.injEq] at hn
  obtain ⟨rfl, rfl⟩ := hn
  simp only [ReadLocked.delete, if_true, ReadWriteLock.Unlock, unlock_semaphore]
  omega

/-- A `SimpleLocker` constructed by `t` on a `SimpleLock` that is free or that
`t` holds, and destroyed at once: `Lock` returns in its first pass and the lock
is as before. -/
theorem SimpleLocker_round_trip (t : Int) (lock : SimpleLock) (n : Nat)
    (hh : (lock.fHolder = -1 ∧ lock.fCount = 0)
      ∨ (lock.fHolder = t ∧ 1 ≤ lock.fCount ∧ lock.fCount < 2 ^ 31)) :
    SimpleLocker_scope t lock (n + 1) = some lock := by
  obtain ⟨h, c⟩ := lock
  rcases hh with ⟨h1, h2⟩ | ⟨h1, h2, h3⟩
  · simp only at h1 h2
    subst h1 h2
    have e1 : wrap32 1 = 1 := by decide
    have e2 : wrap32 0 = 0 := by decide
    simp [SimpleLocker_scope, SimpleLock.Lock, SimpleLock.pass, SimpleLock.Unlock, atomic_read,
      atomic_inc, atomic_dec, e1, e2]
  · simp only at h1 h2 h3
    subst h1
    have e2 : wrap32 (wrap32 (c + 1) - 1) = c := by
      unfold wrap32; omega
    have hc : c ≠ 0 := by omega
    by_cases ht : h = -1
    · subst ht
      simp [SimpleLocker_scope, SimpleLock.Lock, SimpleLock.pass, SimpleLock.Unlock, atomic_read,
        atomic_inc, atomic_dec, e2, hc]
    · simp [SimpleLocker_scope, SimpleLock.Lock, SimpleLock.pass, SimpleLock.Unlock, atomic_read,
        atomic_inc, atomic_dec, e2, hc, ht]

/-- A `RecursiveLocker` constructed by a thread `t ≠ -1` on a free lock and
destroyed at once: `Unlock()` returns and the units, the counter, the owner and
the depth are as before. -/
theorem RecursiveLocker_round_trip_free (b : Bool) (t : Int) (lock l1 : RecursiveLock)
    (g : RecursiveLocker) (ht : t ≠ -1) (hr : -2 ^ 31 < lock.fCount ∧ lock.fCount < 2 ^ 31)
    (hf : lock.fOwner = -1 ∧ lock.fOwnerCount = 0)
    (hn : RecursiveLocker.new b t lock = some (g, l1)) (hs : g.Status = B_OK) :
    ∃ st l2, RecursiveLocker.delete b t g l1 = some (.returned st l2)
      ∧ l2.fSemaphore.units = lock.fSemaphore.units ∧ l2.fCount = lock.fCount
      ∧ l2.fOwner = lock.fOwner ∧ l2.fOwnerCount = lock.fOwnerCount := by
  obtain ⟨k, c, o, d⟩ := lock
  obtain ⟨ho, hd0⟩ := hf
  simp only at ho hd0 hr
  subst ho hd0
  have hd : wrap32 (c - 1) = c - 1 := by rw [wrap32_of_int32] <;> omega
  have hi : wrap32 (c - 1 + 1) = c := by rw [wrap32_of_int32] <;> omega
  have h0 : wrap32 (1 - 1) = 0 := by decide
  cases b <;>
    simp only [RecursiveLocker.new, RecursiveLock.Lock, RecursiveLock.LockWithTimeout,
      RecursiveLock.acquire, lock_semaphore_timeout, RecursiveLock.own, atomic_dec, atomic_read,
      ht, hd, if_true, if_false, Bool.false_eq_true] at hn <;>
    split_ifs at hn <;>
    simp only [Option.some.injEq, Prod.mk.injEq, reduceCtorEq] at hn
  all_goals
    obtain ⟨rfl, rfl⟩ := hn
    simp only [RecursiveLocker.delete, RecursiveLocker.Status, if_true, RecursiveLock.Unlock,
      RecursiveLock.release, unlock_semaphore, atomic_inc, atomic_read, ne_eq,
      not_true_eq_false, if_false, h0, hi, Bool.false_eq_true]
    try split_ifs
    all_goals
      refine ⟨_, _, rfl, ?_, ?_, ?_, ?_⟩ <;> first | rfl | omega | (dsimp only; first | done | omega)

/-- A `RecursiveLocker` constructed by the owner `t` of a lock at depth `d ≥ 1`
and destroyed at once: `Unlock()` returns and the lock is as before. -/
theorem RecursiveLocker_round_trip_owned (b : Bool) (t : Int) (lock l1 : RecursiveLock)
    (g : RecursiveLocker)
    (hf : lock.fOwner = t ∧ 1 ≤ lock.fOwnerCount ∧ lock.fOwnerCount < 2 ^ 31)
    (hn : RecursiveLocker.new b t lock = some (g, l1)) (hs : g.Status = B_OK) :
    ∃ st, RecursiveLocker.delete b t g l1 = some (.returned st lock) := by
  obtain ⟨k, c, o, d⟩ := lock
  obtain ⟨ho, hd1, hd2⟩ := hf
  simp only at ho hd1 hd2
  subst ho
  have e : wrap32 (wrap32 (d + 1) - 1) = d := by unfold wrap32; omega
  have hne : d ≠ 0 := by omega
  simp only [RecursiveLocker.new, RecursiveLock.Lock, RecursiveLock.LockWithTimeout, if_true,
    Option.some.injEq, Prod.mk.injEq] at hn
  obtain ⟨rfl, rfl⟩ := hn
  refine ⟨B_OK, ?_⟩
  simp only [RecursiveLocker.delete, RecursiveLocker.Status, if_true, RecursiveLock.Unlock,
    ne_eq, not_true_eq_false, if_false, e, hne]

/-- Where the round trip of a guard holds: a guard constructed and destroyed at
once, if its acquire returned `B_OK`, leaves the lock as it was: a `Locker` on a `Semaphore` (same units, same
counter), a `RecursiveLocker` of a thread `t ≠ -1` on a free `RecursiveLock`
(owner none, depth 0) or on one that `t` owns at a depth `d ≥ 1` (same units,
counter, owner and depth), a `ReadLocked` on the simple lock (same units) and on
the fast lock (same units and counter), and a `SimpleLocker` on a `SimpleLock`
that is free (holder none, depth 0) or held by its thread, where `Lock` returns
in its first pass and holder and depth are as before.  The counters are
`int32` values above `-2^31`. -/
theorem guard_round_trip :
    (∀ (b : Bool) (lock l1 : Semaphore) (g : Locker),
        (-2 ^ 31 < lock.fCount ∧ lock.fCount < 2 ^ 31) →
        Locker.new b lock = some (g, l1) → g.Status = B_OK →
        (Locker.delete b g l1).fSemaphore.units = lock.fSemaphore.units
          ∧ (Locker.delete b g l1).fCount = lock.fCount)
    ∧ (∀ (b : Bool) (t : Int) (lock l1 : RecursiveLock) (g : RecursiveLocker),
        t ≠ -1 → (-2 ^ 31 < lock.fCount ∧ lock.fCount < 2 ^ 31) →
        (lock.fOwner = -1 ∧ lock.fOwnerCount = 0) →
        RecursiveLocker.new b t lock = some (g, l1) → g.Status = B_OK →
        ∃ st l2, RecursiveLocker.delete b t g l1 = some (.returned st l2)
          ∧ l2.fSemaphore.units = lock.fSemaphore.units ∧ l2.fCount = lock.fCount
          ∧ l2.fOwner = lock.fOwner ∧ l2.fOwnerCount = lock.fOwnerCount)
    ∧ (∀ (b : Bool) (t : Int) (lock l1 : RecursiveLock) (g : RecursiveLocker),
        (lock.fOwner = t ∧ 1 ≤ lock.fOwnerCount ∧ lock.fOwnerCount < 2 ^ 31) →
        RecursiveLocker.new b t lock = some (g, l1) → g.Status = B_OK →
        ∃ st, RecursiveLocker.delete b t g l1 = some (.returned st lock))
    ∧ (∀ (lock l1 : ReadWriteLock) (g : ReadLocked),
        ReadLocked.new lock = some (g, l1) → g.fStatus = B_OK →
        (ReadLocked.delete g l1).fSemaphore.units = lock.fSemaphore.units)
    ∧ (∀ (lock l1 : FastReadWriteLock) (g : FastReadLocked),
        (-2 ^ 31 < lock.fCount ∧ lock.fCount < 2 ^ 31) →
        FastReadLocked.new lock = some (g, l1) → g.fStatus = B_OK →
        (FastReadLocked.delete g l1).fSemaphore.units = lock.fSemaphore.units
          ∧ (FastReadLocked.delete g l1).fCount = lock.fCount
          ∧ (FastReadLocked.delete g l1).fWriteLock = lock.fWriteLock)
    ∧ (∀ (t : Int) (lock : SimpleLock) (n : Nat),
        ((lock.fHolder = -1 ∧ lock.fCount = 0)
          ∨ (lock.fHolder = t ∧ 1 ≤ lock.fCount ∧ lock.fCount < 2 ^ 31)) →
        SimpleLocker_scope t lock (n + 1) = some lock) :=
  ⟨Locker_round_trip, RecursiveLocker_round_trip_free, RecursiveLocker_round_trip_owned,
    ReadLocked_round_trip, FastReadLocked_round_trip, SimpleLocker_round_trip⟩

/-- The round trips at concrete inputs: a `Locker` on a fresh semaphore, a `RecursiveLocker`
of thread 7 on a lock it owns at depth 2, and a `SimpleLocker` of thread 7 on a
fresh `SimpleLock`. -/
theorem guard_round_trip_at_fresh :
    (Locker.new false (Semaphore.new false) = some (⟨B_OK⟩, ⟨⟨0, 1, 0⟩, 0⟩)
      ∧ (Locker.delete false ⟨B_OK⟩ ⟨⟨0, 1, 0⟩, 0⟩).fSemaphore.units
          = (Semaphore.new false).fSemaphore.units
      ∧ (Locker.delete false ⟨B_OK⟩ ⟨⟨0, 1, 0⟩, 0⟩).fCount = (Semaphore.new false).fCount)
    ∧ (RecursiveLocker.new false 7 ⟨⟨0, 1, 0⟩, 0, 7, 2⟩ = some (⟨B_OK⟩, ⟨⟨0, 1, 0⟩, 0, 7, 3⟩)
      ∧ ∃ st, RecursiveLocker.delete false 7 ⟨B_OK⟩ ⟨⟨0, 1, 0⟩, 0, 7, 3⟩
          = some (.returned st ⟨⟨0, 1, 0⟩, 0, 7, 2⟩))
    ∧ SimpleLocker_scope 7 SimpleLock.new (0 + 1) = some SimpleLock.new :=
  ⟨⟨rfl, guard_round_trip.1 false (Semaphore.new false) ⟨⟨0, 1, 0⟩, 0⟩ ⟨B_OK⟩
      (by decide) rfl rfl⟩,
    ⟨by decide, guard_round_trip.2.2.1 false 7 ⟨⟨0, 1, 0⟩, 0, 7, 2⟩ ⟨⟨0, 1, 0⟩, 0, 7, 3⟩
      ⟨B_OK⟩ (by decide) (by decide) rfl⟩,
    guard_round_trip.2.2.2.2.2 7 SimpleLock.new 0 (Or.inl ⟨rfl, rfl⟩)⟩

/-! ## A writer admitted beside a reader, and a lock constructed over used memory -/

/-- C5 (the code at the failing input, k = 2): on a fresh fast lock threads 1
and 2 hold read locks, thread 3 calls `LockWrite()` and returns `B_OK` as soon
as thread 1 has unlocked, then readers 5 and 6 call `Lock()` and are parked.
Thread 3 is the single writer and exactly two readers have queued during its
hold, with the counter at `-3` because thread 2 is still inside.
`UnlockWrite()` then releases 3 units and leaves the counter at
`MAX_READERS - 3`; after both queued readers have been woken one unit is left
over. -/
theorem C5_UnlockWrite_releases_one_unit_too_many (USE_BENAPHORE : Bool) :
    ∃ s s1 s2,
      fastRun USE_BENAPHORE (fastInit USE_BENAPHORE)
          [.Lock 1, .Lock 2, .LockWrite 3, .Unlock 1, .WriterWoken 3, .Lock 5, .Lock 6] = some s
      ∧ s.writers = [3] ∧ s.parkedWriters = [] ∧ s.queuedWriters = []
      ∧ s.parkedReaders = [6, 5] ∧ s.readers = [2]
      ∧ s.lock.fCount = -3 ∧ s.lock.fSemaphore.units = 0
      ∧ fastStep USE_BENAPHORE s (.UnlockWrite 3) = some s1
      ∧ s1.lock.fSemaphore.units = 3 ∧ s1.lock.fCount = 99997
      ∧ s1.lock.fCount ≠ MAX_READERS - 2
      ∧ fastRun USE_BENAPHORE s1 [.ReaderWoken 6, .ReaderWoken 5] = some s2
      ∧ s2.parkedReaders = [] ∧ s2.lock.fSemaphore.units = 1 := by
  cases USE_BENAPHORE <;>
    exact ⟨_, _, _, rfl, rfl, rfl, rfl, rfl, rfl, rfl, rfl, rfl, rfl, rfl, by decide, rfl, rfl,
      rfl⟩

/-- C12 (counterexample to the claim as stated): `ReadLocked` has a constructor
and a destructor and nothing else.  Two `ReadLocked` guards that recorded
different statuses, `B_ERROR` and `B_TIMED_OUT`, cannot be told apart: the
destructor, the only member function that reads `fStatus`, does the same for
both on every lock, over the simple and over the fast lock.  The guard
therefore has no status query that returns the recorded status. -/
theorem C12_ReadLocked_status_cannot_be_read :
    B_ERROR ≠ B_TIMED_OUT
    ∧ (∀ l : ReadWriteLock,
        ReadLocked.delete ⟨B_ERROR⟩ l = ReadLocked.delete ⟨B_TIMED_OUT⟩ l)
    ∧ (∀ l : FastReadWriteLock,
        FastReadLocked.delete ⟨B_ERROR⟩ l = FastReadLocked.delete ⟨B_TIMED_OUT⟩ l) := by
  refine ⟨by decide, fun l => ?_, fun l => ?_⟩
  · have h1 : B_ERROR ≠ B_OK := by decide
    have h2 : B_TIMED_OUT ≠ B_OK := by decide
    simp only [ReadLocked.delete, h1, h2, if_false]
  · have h1 : B_ERROR ≠ B_OK := by decide
    have h2 : B_TIMED_OUT ≠ B_OK := by decide
    simp only [FastReadLocked.delete, h1, h2, if_false]

/-- C12 (as amended): each of `Locker`, `RecursiveLocker`, `ReadLocked` and
`WriteLocked` (over the simple and over the fast lock) is constructed exactly
when the wrapped acquire returns, with the status the acquire returned in
`fStatus` and the lock as the acquire left it, and is not constructed while the
acquire has its caller parked; `Status()` of `Locker` and `RecursiveLocker` and
`IsLocked()` of `WriteLocked` return the recorded status, whatever it is
(`ReadLocked` has no such member function); the destructor makes the matching
unlock call, once, if the recorded status is `B_OK` and leaves the lock as it is
for every other status.  On a kernel semaphore the release counter goes up by
one in the first case and by nothing in the second. -/
theorem C12_guards_release_only_on_success :
    (∀ (b : Bool) (lock : Semaphore),
        (∀ st l1, lock.Lock b = .returned st l1 → Locker.new b lock = some (⟨st⟩, l1))
        ∧ (∀ l1, lock.Lock b = .blocked l1 → Locker.new b lock = none))
    ∧ (∀ st : Int, Locker.Status ⟨st⟩ = st)
    ∧ (∀ (b : Bool) (st : Int) (l : Semaphore),
        Locker.delete b ⟨st⟩ l = (if st = B_OK then (l.Unlock b).2 else l)
        ∧ (Locker.delete false ⟨st⟩ l).fSemaphore.releases
            = l.fSemaphore.releases + if st = B_OK then 1 else 0)
    ∧ (∀ (b : Bool) (t : Int) (lock : RecursiveLock),
        (∀ st l1, lock.Lock b t = .returned st l1 →
          RecursiveLocker.new b t lock = some (⟨st⟩, l1))
        ∧ (∀ l1, lock.Lock b t = .blocked l1 → RecursiveLocker.new b t lock = none))
    ∧ (∀ st : Int, RecursiveLocker.Status ⟨st⟩ = st)
    ∧ (∀ (b : Bool) (t st : Int) (l : RecursiveLock),
        RecursiveLocker.delete b t ⟨st⟩ l = if st = B_OK then some (l.Unlock b t) else none)
    ∧ (∀ lock : ReadWriteLock,
        (∀ st l1, lock.Lock = .returned st l1 → ReadLocked.new lock = some (⟨st⟩, l1))
        ∧ (∀ l1, lock.Lock = .blocked l1 → ReadLocked.new lock = none))
    ∧ (∀ (st : Int) (l : ReadWriteLock),
        ReadLocked.delete ⟨st⟩ l = (if st = B_OK then l.Unlock else l)
        ∧ (ReadLocked.delete ⟨st⟩ l).fSemaphore.releases
            = l.fSemaphore.releases + if st = B_OK then 1 else 0)
    ∧ (∀ lock : FastReadWriteLock,
        (∀ st l1, lock.Lock = .returned st l1 → FastReadLocked.new lock = some (⟨st⟩, l1))
        ∧ (∀ l1, lock.Lock = .blocked l1 → FastReadLocked.new lock = none))
    ∧ (∀ (st : Int) (l : FastReadWriteLock),
        FastReadLocked.delete ⟨st⟩ l = if st = B_OK then l.Unlock else l)
    ∧ (∀ lock : ReadWriteLock,
        (∀ st l1, lock.LockWrite = .returned st l1 → WriteLocked.new lock = some (⟨st⟩, l1))
        ∧ (∀ l1, lock.LockWrite = .blocked l1 → WriteLocked.new lock = none))
    ∧ (∀ st : Int, WriteLocked.IsLocked ⟨st⟩ = st)
    ∧ (∀ (st : Int) (l : ReadWriteLock),
        WriteLocked.delete ⟨st⟩ l = (if st = B_OK then l.UnlockWrite else l)
        ∧ (WriteLocked.delete ⟨st⟩ l).fSemaphore.releases
            = l.fSemaphore.releases + if st = B_OK then 1 else 0)
    ∧ (∀ (b : Bool) (lock : FastReadWriteLock),
        (∀ st l1, lock.LockWrite b = .returned st l1 →
          FastWriteLocked.new b lock = some (⟨st⟩, l1))
        ∧ (∀ l1, lock.LockWrite b = .blockedOnWriteLock l1 → FastWriteLocked.new b lock = none)
        ∧ (∀ l1, lock.LockWrite b = .blockedOnSemaphore l1 → FastWriteLocked.new b lock = none))
    ∧ (∀ st : Int, FastWriteLocked.IsLocked ⟨st⟩ = st)
    ∧ (∀ (st : Int) (l : FastReadWriteLock),
        FastWriteLocked.delete ⟨st⟩ l = if st = B_OK then l.UnlockWrite else l) := by
  refine ⟨fun b lock => ⟨fun st l1 h => ?_, fun l1 h => ?_⟩, fun _ => rfl, fun b st l => ⟨rfl, ?_⟩,
    fun b t lock => ⟨fun st l1 h => ?_, fun l1 h => ?_⟩, fun _ => rfl, fun _ _ _ _ => rfl,
    fun lock => ⟨fun st l1 h => ?_, fun l1 h => ?_⟩, fun st l => ⟨rfl, ?_⟩,
    fun lock => ⟨fun st l1 h => ?_, fun l1 h => ?_⟩, fun _ _ => rfl,
    fun lock => ⟨fun st l1 h => ?_, fun l1 h => ?_⟩, fun _ => rfl, fun st l => ⟨rfl, ?_⟩,
    fun b lock => ⟨fun st l1 h => ?_, fun l1 h => ?_, fun l1 h => ?_⟩, fun _ => rfl,
    fun _ _ => rfl⟩
  · simp only [Locker.new, h]
  · simp only [Locker.new, h]
  · simp only [Locker.delete, Semaphore.Unlock, Semaphore.release, unlock_semaphore,
      Bool.false_eq_true, if_false]
    split_ifs <;> rfl
  · simp only [RecursiveLocker.new, h]
  · simp only [RecursiveLocker.new, h]
  · simp only [ReadLocked.new, h]
  · simp only [ReadLocked.new, h]
  · simp only [ReadLocked.delete, ReadWriteLock.Unlock, unlock_semaphore]
    split_ifs <;> rfl
  · simp only [FastReadLocked.new, h]
  · simp only [FastReadLocked.new, h]
  · simp only [WriteLocked.new, h]
  · simp only [WriteLocked.new, h]
  · simp only [WriteLocked.delete, ReadWriteLock.UnlockWrite, unlock_semaphore_ex]
    split_ifs <;> rfl
  · simp only [FastWriteLocked.new, h]
  · simp only [FastWriteLocked.new, h]
  · simp only [FastWriteLocked.new, h]

/-- C12 at concrete inputs: a `Locker` on a fresh semaphore (the acquire
succeeds and the destructor releases once), a `WriteLocked` on a simple lock
whose semaphore is empty (the acquire times out and the destructor leaves the
lock alone), and a `WriteLocked` on a fresh fast lock. -/
theorem C12_guards_release_only_on_success_witness :
    ((Semaphore.new false).Lock false = .returned B_OK ⟨⟨0, 1, 0⟩, 0⟩
      ∧ Locker.new false (Semaphore.new false) = some (⟨B_OK⟩, ⟨⟨0, 1, 0⟩, 0⟩)
      ∧ Locker.delete false ⟨B_OK⟩ ⟨⟨0, 1, 0⟩, 0⟩ = ⟨⟨1, 1, 1⟩, 0⟩)
    ∧ (ReadWriteLock.LockWrite ⟨⟨0, 0, 0⟩⟩ = .returned B_TIMED_OUT ⟨⟨0, 1, 0⟩⟩
      ∧ WriteLocked.new ⟨⟨0, 0, 0⟩⟩ = some (⟨B_TIMED_OUT⟩, ⟨⟨0, 1, 0⟩⟩)
      ∧ WriteLocked.IsLocked ⟨B_TIMED_OUT⟩ = B_TIMED_OUT
      ∧ WriteLocked.delete ⟨B_TIMED_OUT⟩ ⟨⟨0, 1, 0⟩⟩ = ⟨⟨0, 1, 0⟩⟩)
    ∧ ((FastReadWriteLock.Initialize false).LockWrite false
          = .returned B_OK ⟨⟨0, 0, 0⟩, 0, ⟨⟨1, 1, 1⟩, 0⟩⟩
      ∧ FastWriteLocked.new false (FastReadWriteLock.Initialize false)
          = some (⟨B_OK⟩, ⟨⟨0, 0, 0⟩, 0, ⟨⟨1, 1, 1⟩, 0⟩⟩)) :=
  ⟨⟨rfl, (C12_guards_release_only_on_success.1 false (Semaphore.new false)).1 _ _ rfl,
      (C12_guards_release_only_on_success.2.2.1 false B_OK ⟨⟨0, 1, 0⟩, 0⟩).1.trans
        (by decide)⟩,
    ⟨rfl, (C12_guards_release_only_on_success.2.2.2.2.2.2.2.2.2.2.1 ⟨⟨0, 0, 0⟩⟩).1 _ _ rfl,
      C12_guards_release_only_on_success.2.2.2.2.2.2.2.2.2.2.2.1 B_TIMED_OUT,
      (C12_guards_release_only_on_success.2.2.2.2.2.2.2.2.2.2.2.2.1 B_TIMED_OUT
        ⟨⟨0, 1, 0⟩⟩).1.trans (by decide)⟩,
    ⟨rfl, (C12_guards_release_only_on_success.2.2.2.2.2.2.2.2.2.2.2.2.2.1 false
        (FastReadWriteLock.Initialize false)).1 _ _ rfl⟩⟩

end BfsLock
